import Mathlib

/-!
Verification development for the meme-game session engine
(server `gameManager.ts`, `types.ts`, `constants.ts`, transport `index.ts`).

The engine's mutable state is embedded shallowly:
* JS `Map`s (insertion-ordered) become association lists with `mapGet`/`mapSet`.
* JS `Set`s of strings become lists with `setAdd`.
* All sources of nondeterminism (`Math.random` via `randomItem`/`shuffle`,
  `Date.now()`, `randomUUID`, the meme provider) are passed in explicitly as
  oracle parameters, so every operation is a pure function on `LobbyState`.
* `Array.prototype.sort` with a comparator is modelled as a stable
  comparison sort (`jsSort`, insertion-based; V8 runs insertion sort for
  the short arrays occurring here).
-/

namespace MemeGame

/-- shared/types.ts `GameTheme`: the enumerated themes. The engine stores the
theme as an arbitrary string, so the model uses `String` and lists the valid
values separately. -/
def validThemes : List String := ["fun", "university", "18+"]

/-- shared/types.ts `MemeCard`. -/
structure MemeCard where
  id : String
  url : String
  alt : Option String
deriving DecidableEq, Repr

/-- shared/types.ts `SituationPrompt`. -/
structure SituationPrompt where
  id : String
  text : String
  theme : String
deriving DecidableEq, Repr

/-- shared/types.ts `LobbySettings`. JS numbers are modelled as integers
(`Math.floor` on an integer model is the identity). -/
structure LobbySettings where
  rounds : Int
  theme : String
  maxPlayers : Int
deriving DecidableEq, Repr

/-- shared/types.ts `GamePhase`. -/
inductive GamePhase where
  | lobby
  | selection
  | voting
  | roundResults
  | finalResults
deriving DecidableEq, Repr

/-- shared/types.ts `HighlightMoment`. -/
structure HighlightMoment where
  card : MemeCard
  situation : SituationPrompt
  points : Int
  roundNumber : Nat
deriving DecidableEq, Repr

/-- game/types.ts `PlayerState`. -/
structure PlayerState where
  id : String
  name : String
  avatar : String
  isHost : Bool
  connected : Bool
  spectator : Bool
  socketId : Option String
  score : Int
  hand : List MemeCard
  submittedMemeId : Option String
  voteRanking : Option (List String)
  bestMoment : Option HighlightMoment
deriving DecidableEq, Repr

/-- game/types.ts `RoundResultEntryInternal`. -/
structure RoundResultEntryInternal where
  playerId : String
  points : Int
  firstPlaceVotes : Nat
  secondPlaceVotes : Nat
  placements : List Nat
deriving DecidableEq, Repr

/-- game/types.ts `RoundInternalState`.  The `Map`s become association lists
in insertion order. -/
structure RoundInternalState where
  roundNumber : Nat
  situation : SituationPrompt
  submissions : List (String × MemeCard)
  submissionSlots : List (String × String)
  votes : List (String × List String)
  phase : GamePhase
  endsAt : Option Int
  seed : Nat
  leaderboard : Option (List RoundResultEntryInternal)
deriving DecidableEq, Repr

/-- game/types.ts `LobbyState`.  `players` is the `Map` in insertion order;
player ids act as the keys. -/
structure LobbyState where
  id : String
  settings : LobbySettings
  hostId : String
  players : List PlayerState
  deck : List MemeCard
  usedSituations : List String
  situationsPool : List SituationPrompt
  phase : GamePhase
  round : Option RoundInternalState
deriving DecidableEq, Repr

/-- JS `Map.get`: first (unique) entry with the key. -/
def mapGet {α : Type} (m : List (String × α)) (k : String) : Option α :=
  (m.find? (fun e => e.1 == k)).map (fun e => e.2)

/-- JS `Map.set`: replace in place if the key exists, else append. -/
def mapSet {α : Type} (m : List (String × α)) (k : String) (v : α) : List (String × α) :=
  if m.any (fun e => e.1 == k) then
    m.map (fun e => if e.1 == k then (k, v) else e)
  else
    m ++ [(k, v)]

/-- JS `Set.add` on a set of strings. -/
def setAdd (s : List String) (x : String) : List String :=
  if s.contains x then s else s ++ [x]

/-- `lobby.players.get(playerId)`. -/
def getPlayer (l : LobbyState) (pid : String) : Option PlayerState :=
  l.players.find? (fun p => p.id == pid)

/-- Update a single player record in the roster (JS mutates the object held
in the `Map`). -/
def setPlayer (l : LobbyState) (pid : String) (f : PlayerState → PlayerState) : LobbyState :=
  { l with players := l.players.map (fun q => if q.id == pid then f q else q) }

/-- `[...lobby.players.values()].filter((p) => !p.spectator)`. -/
def activePlayers (l : LobbyState) : List PlayerState :=
  l.players.filter (fun p => !p.spectator)

/-! ## constants.ts -/

def funSituations : List String :=
  ["Your group chat suddenly revives at 2AM.",
   "Someone brings out a karaoke mic at the party.",
   "You open the fridge and see mystery leftovers.",
   "It is Monday morning and your alarm just betrayed you.",
   "A raccoon is staring at you from the trash can.",
   "Your favorite show just got cancelled again.",
   "Your friend says \"trust me\" before doing a backflip."]

def universitySituations : List String :=
  ["The professor says \"this won't be on the exam\".",
   "It is finals week and the library is full.",
   "Group project due tomorrow and no one replied.",
   "Campus wifi goes down during an online test.",
   "You accidentally walk into the wrong lecture hall.",
   "The only printer on campus jams again.",
   "You see your TA at the grocery store."]

def matureSituations : List String :=
  ["Your situationship texts \"we need to talk\".",
   "The bartender remembers your order a little too well.",
   "Your ex suddenly watches your stories again.",
   "You read the receipt after a wild night out.",
   "The group chat dares you to send a risky text.",
   "You meet the in-laws after bottomless brunch."]

/-- constants.ts `toPrompts`. -/
def toPrompts (theme : String) (items : List String) : List SituationPrompt :=
  items.enum.map (fun e => { id := theme ++ "-" ++ toString e.1, text := e.2, theme := theme })

/-- constants.ts `SITUATIONS`: a record keyed by the three themes; indexing
with any other string yields `undefined` (here `none`). -/
def SITUATIONS (theme : String) : Option (List SituationPrompt) :=
  if theme = "fun" then some (toPrompts "fun" funSituations)
  else if theme = "university" then some (toPrompts "university" universitySituations)
  else if theme = "18+" then some (toPrompts "18+" matureSituations)
  else none

/-- `[...SITUATIONS[theme]]`.  Spreading `undefined` throws in JS; the total
model returns `[]` for an unrecognized theme (the crash is surfaced where it
matters, in `updateSettings` and `createLobby`, via `Except`/`Option`). -/
def situationsForTheme (theme : String) : List SituationPrompt :=
  (SITUATIONS theme).getD []

def SELECTION_DURATION_MS : Int := 45 * 1000
def VOTING_DURATION_MS : Int := 60 * 1000
def RESULTS_DURATION_MS : Int := 12 * 1000

/-! ## Oracles for the ambient nondeterminism -/

/-- All uses of `Math.random`/`Date.now` inside the engine, made explicit.
`pickSituationIdx` and `autoPickIdx` model `randomItem` (an index into the
list, taken modulo its length); `shuffleSubs` and `autoRank` model `shuffle`;
`tie` models the per-comparison `random() - 0.5 <= 0` coin of the seeded
`mulberry32` generator inside the leaderboard comparator. -/
structure RngOracle where
  pickSituationIdx : Nat
  roundSeed : Nat
  autoPickIdx : String → Nat
  shuffleSubs : List (String × MemeCard) → List (String × MemeCard)
  autoRank : String → List String → List String
  tie : RoundResultEntryInternal → RoundResultEntryInternal → Bool
  now : Int

/-! ## GameManager: settings, lobby creation, joining, host management -/

/-- gameManager.ts `sanitizeSettings` (the GameManager method): clamps
`rounds` to [5,20] and `maxPlayers` to [2,7]; the `theme` field is passed
through unchanged. -/
def sanitizeSettings (s : LobbySettings) : LobbySettings :=
  { rounds := min 20 (max 5 s.rounds),
    theme := s.theme,
    maxPlayers := min 7 (max 2 s.maxPlayers) }

/-- index.ts `sanitizeSettings` (the transport layer's request sanitizer,
applied on lobby creation): unlike the GameManager method it replaces an
unrecognized theme with the default "fun".  Absent/non-numeric `rounds` and
`maxPlayers` are modelled as `none`. -/
def serverSanitizeSettings (rounds maxPlayers : Option Int) (theme : String) : LobbySettings :=
  { rounds := rounds.getD 5,
    theme := if theme = "18+" ∨ theme = "fun" ∨ theme = "university" then theme else "fun",
    maxPlayers := maxPlayers.getD 5 }

/-- gameManager.ts `createLobby`.  `randomUUID`/`randomItem(CELEBRITY_NAMES)`/
`randomItem(EMOJI_AVATARS)` are the `lobbyId`, `hostId`, `hostName`,
`hostAvatar` parameters.  Building `situationsPool` spreads
`SITUATIONS[theme]`, which throws for an unrecognized theme before the lobby
is stored: that is the `none` case. -/
def createLobby (lobbyId hostId hostName hostAvatar : String) (settings : LobbySettings) :
    Option (LobbyState × PlayerState) :=
  let s := sanitizeSettings settings
  match SITUATIONS s.theme with
  | none => none
  | some pool =>
    let host : PlayerState :=
      { id := hostId, name := hostName, avatar := hostAvatar, isHost := true,
        connected := false, spectator := false, socketId := none, score := 0,
        hand := [], submittedMemeId := none, voteRanking := none, bestMoment := none }
    some ({ id := lobbyId, settings := s, hostId := hostId, players := [host],
            deck := [], usedSituations := [], situationsPool := pool,
            phase := GamePhase.lobby, round := none }, host)

/-- gameManager.ts `ensureHost`. -/
def ensureHost (l : LobbyState) : LobbyState :=
  match getPlayer l l.hostId with
  | some currentHost =>
    if !currentHost.spectator then
      setPlayer l l.hostId (fun p => { p with isHost := true })
    else
      match (l.players.find? (fun p => !p.spectator && p.connected)).orElse
              (fun _ => l.players.find? (fun p => !p.spectator)) with
      | some next =>
        { l with hostId := next.id,
                 players := l.players.map (fun p => { p with isHost := p.id == next.id }) }
      | none => l
  | none =>
    match (l.players.find? (fun p => !p.spectator && p.connected)).orElse
            (fun _ => l.players.find? (fun p => !p.spectator)) with
    | some next =>
      { l with hostId := next.id,
               players := l.players.map (fun p => { p with isHost := p.id == next.id }) }
    | none => l

/-- Join options (gameManager.ts `joinLobby` second parameter). -/
structure JoinOpts where
  playerId : Option String
  name : Option String
  avatar : Option String
  spectator : Bool
deriving DecidableEq, Repr

/-- JS `a || b` for optional strings (empty string is falsy). -/
def jsOrString (a : Option String) (b : String) : String :=
  match a with
  | some v => if v = "" then b else v
  | none => b

/-- gameManager.ts `joinLobby`, for a lobby that exists.  Returns the updated
lobby, the (created or reused) player, the spectator flag, and the optional
informational error string.  `randomUUID`/`randomItem` defaults are the
`freshId`/`defaultName`/`defaultAvatar` parameters. -/
def joinLobby (freshId defaultName defaultAvatar : String) (l : LobbyState) (opts : JoinOpts) :
    LobbyState × PlayerState × Bool × Option String :=
  match opts.playerId.bind (fun pid => getPlayer l pid) with
  | some player => (l, player, player.spectator, none)
  | none =>
    let requestedSpectator := opts.spectator
    let actives := activePlayers l
    let shouldSpectate :=
      requestedSpectator ||
        (decide (l.phase ≠ GamePhase.lobby) && decide ((actives.length : Int) ≥ l.settings.maxPlayers))
    let player : PlayerState :=
      { id := opts.playerId.getD freshId,
        name := jsOrString opts.name defaultName,
        avatar := jsOrString opts.avatar defaultAvatar,
        isHost := false, connected := false, spectator := shouldSpectate,
        socketId := none, score := 0, hand := [], submittedMemeId := none,
        voteRanking := none, bestMoment := none }
    let l1 := { l with players := l.players ++ [player] }
    let l2 := if !shouldSpectate then ensureHost l1 else l1
    (l2, player, shouldSpectate,
      if shouldSpectate && !requestedSpectator then some "Lobby is full, joined as spectator." else none)

/-- gameManager.ts `markPlayerConnected`. -/
def markPlayerConnected (l : LobbyState) (pid sid : String) : LobbyState :=
  match getPlayer l pid with
  | none => l
  | some _ => setPlayer l pid (fun p => { p with connected := true, socketId := some sid })

/-- gameManager.ts `markPlayerDisconnected`, restricted to one lobby: find
the player owning the socket, mark them disconnected, and re-run host
assignment if they were the host. -/
def markPlayerDisconnected (l : LobbyState) (sid : String) : LobbyState :=
  match l.players.find? (fun p => p.socketId == some sid) with
  | none => l
  | some player =>
    let l1 := setPlayer l player.id (fun p => { p with connected := false, socketId := none })
    if player.isHost then ensureHost l1 else l1

/-- gameManager.ts `updatePlayerName`. -/
def updatePlayerName (l : LobbyState) (pid name : String) : LobbyState :=
  match getPlayer l pid with
  | none => l
  | some _ =>
    let trimmed := name.trim
    if trimmed = "" then l
    else setPlayer l pid (fun p => { p with name := trimmed.take 40 })

/-- gameManager.ts `updatePlayerAvatar`. -/
def updatePlayerAvatar (l : LobbyState) (pid avatar : String) : LobbyState :=
  match getPlayer l pid with
  | none => l
  | some _ => setPlayer l pid (fun p => { p with avatar := avatar.take 8 })

/-- gameManager.ts `updateSettings`.  The settings assignment happens first;
rebuilding `situationsPool` then spreads `SITUATIONS[theme]`, which throws
for an unrecognized theme.  The `Except.error` case carries the lobby state
at the moment of the throw (settings already overwritten). -/
def updateSettings (l : LobbyState) (pid : String) (s : LobbySettings) :
    Except LobbyState LobbyState :=
  if l.hostId ≠ pid then Except.ok l
  else
    let l1 := { l with settings := sanitizeSettings s }
    match SITUATIONS l1.settings.theme with
    | some pool => Except.ok { l1 with situationsPool := pool }
    | none => Except.error l1

/-- Post-state of an `updateSettings` call whether or not it threw. -/
def afterUpdate (r : Except LobbyState LobbyState) : LobbyState :=
  match r with
  | Except.ok l => l
  | Except.error l => l

/-! ## Round flow: begin, selection, voting, scoring, finish -/

/-- `randomItem`: `items[Math.floor(Math.random() * items.length)]`, with the
random draw given as an index reduced modulo the length.  On an empty list JS
yields `undefined`; the model returns the supplied surrogate (never reached on
the paths where the list is nonempty). -/
def randomItemAt {α : Type} (items : List α) (i : Nat) (surrogate : α) : α :=
  (items.get? (i % items.length)).getD surrogate

def surrogatePrompt : SituationPrompt := { id := "", text := "", theme := "" }

/-- gameManager.ts `pickSituation`: regenerate the pool with "-repeat-" ids
when exhausted, pick a random unused prompt (else any prompt), and record its
id as used.  Returns the choice and the mutated lobby. -/
def pickSituation (o : RngOracle) (l : LobbyState) : SituationPrompt × LobbyState :=
  let l1 :=
    if l.situationsPool.length = 0 then
      { l with
        situationsPool :=
          (situationsForTheme l.settings.theme).enum.map (fun e =>
            { e.2 with
              id := e.2.id ++ "-repeat-" ++ toString e.1
              text := e.2.text ++ " (new spin)" })
        usedSituations := [] }
    else l
  let available := l1.situationsPool.filter (fun s => !(l1.usedSituations.contains s.id))
  let choice :=
    if available.length > 0 then randomItemAt available o.pickSituationIdx surrogatePrompt
    else randomItemAt l1.situationsPool o.pickSituationIdx surrogatePrompt
  (choice, { l1 with usedSituations := setAdd l1.usedSituations choice.id })

/-- gameManager.ts `beginRound`. -/
def beginRound (o : RngOracle) (l : LobbyState) : LobbyState :=
  let roundNumber := (match l.round with | some rd => rd.roundNumber | none => 0) + 1
  let pick := pickSituation o l
  let rd : RoundInternalState :=
    { roundNumber := roundNumber, situation := pick.1, submissions := [],
      submissionSlots := [], votes := [], phase := GamePhase.selection,
      endsAt := some (o.now + SELECTION_DURATION_MS), seed := o.roundSeed,
      leaderboard := none }
  { pick.2 with
    round := some rd
    phase := GamePhase.selection
    players := pick.2.players.map (fun p => { p with submittedMemeId := none, voteRanking := none }) }

/-- gameManager.ts `allSubmitted`. -/
def allSubmitted (l : LobbyState) : Bool :=
  match l.round with
  | none => false
  | some rd => (activePlayers l).all (fun p => (mapGet rd.submissions p.id).isSome)

/-- gameManager.ts `allVotesIn`. -/
def allVotesIn (l : LobbyState) : Bool :=
  match l.round with
  | none => false
  | some rd =>
    let participants := activePlayers l
    if participants.length ≤ 1 then true
    else participants.all (fun p => (mapGet rd.votes p.id).isSome)

def surrogateCard : MemeCard := { id := "", url := "", alt := none }

/-- Record `card` as `pid`'s submission and remove it from their hand (the
shared mutation of `submitMeme` and `ensureAutoSubmissions`). -/
def applySubmission (l : LobbyState) (rd : RoundInternalState) (pid : String)
    (card : MemeCard) : LobbyState :=
  setPlayer { l with round := some { rd with submissions := mapSet rd.submissions pid card } }
    pid (fun q =>
      { q with
        submittedMemeId := some card.id
        hand := q.hand.filter (fun c => !(c.id == card.id)) })

/-- Auto-submit a random card from `p`'s hand, or do nothing when the hand
is empty. -/
def autoSubmitPlayer (o : RngOracle) (l : LobbyState) (rd : RoundInternalState)
    (pid : String) (p : PlayerState) : LobbyState :=
  if p.hand.length > 0 then
    applySubmission l rd pid (randomItemAt p.hand (o.autoPickIdx pid) surrogateCard)
  else l

/-- Body of one `ensureAutoSubmissions` iteration once the round is known:
if the participant has no submission yet, submit a random card from their
hand (skipping players with empty hands). -/
def autoSubmitOneCore (o : RngOracle) (l : LobbyState) (rd : RoundInternalState)
    (pid : String) : LobbyState :=
  if (mapGet rd.submissions pid).isSome then l
  else
    match getPlayer l pid with
    | none => l
    | some p => autoSubmitPlayer o l rd pid p

/-- One iteration of the `ensureAutoSubmissions` loop. -/
def autoSubmitOne (o : RngOracle) (l : LobbyState) (pid : String) : LobbyState :=
  match l.round with
  | none => l
  | some rd => autoSubmitOneCore o l rd pid

/-- gameManager.ts `ensureAutoSubmissions`. -/
def ensureAutoSubmissions (o : RngOracle) (l : LobbyState) : LobbyState :=
  match l.round with
  | none => l
  | some _ => (activePlayers l).foldl (fun acc p => autoSubmitOne o acc p.id) l

/-- `'ABCDEFGHIJKLMNOPQRSTUVWXYZ'[index]` as a one-character slot label. -/
def slotLabel (i : Nat) : String :=
  String.mk [("ABCDEFGHIJKLMNOPQRSTUVWXYZ".toList.get? i).getD '?']

/-- The second half of `endSelection`: move to voting, assign slot labels
over a shuffled copy of the submissions, arm the voting deadline. -/
def assignSlots (o : RngOracle) (l1 : LobbyState) : LobbyState :=
  match l1.round with
  | none => l1
  | some rd =>
    { l1 with
      phase := GamePhase.voting
      round := some { rd with
                      phase := GamePhase.voting
                      submissionSlots := (o.shuffleSubs rd.submissions).enum.foldl
                        (fun m e => mapSet m e.2.1 (slotLabel e.1)) rd.submissionSlots
                      endsAt := some (o.now + VOTING_DURATION_MS) } }

/-- gameManager.ts `endSelection`: auto-submit, then move to voting with slot
labels and the voting deadline. -/
def endSelection (o : RngOracle) (l : LobbyState) : LobbyState :=
  match l.round with
  | none => l
  | some _ => assignSlots o (ensureAutoSubmissions o l)

/-- Record `ranking` as `vid`'s vote (the shared mutation of `submitVote`
and `ensureAutoVotes`). -/
def applyVoteRecord (l : LobbyState) (rd : RoundInternalState) (vid : String)
    (ranking : List String) : LobbyState :=
  setPlayer { l with round := some { rd with votes := mapSet rd.votes vid ranking } }
    vid (fun q => { q with voteRanking := some ranking })

/-- Body of one `ensureAutoVotes` iteration once the round is known: voters
without a recorded vote get a shuffled ranking of every other submitter. -/
def autoVoteOneCore (o : RngOracle) (l : LobbyState) (rd : RoundInternalState)
    (vid : String) : LobbyState :=
  if (mapGet rd.votes vid).isSome then l
  else
    applyVoteRecord l rd vid
      (o.autoRank vid ((rd.submissions.map Prod.fst).filter (fun i => !(i == vid))))

/-- One iteration of the `ensureAutoVotes` loop. -/
def autoVoteOne (o : RngOracle) (l : LobbyState) (vid : String) : LobbyState :=
  match l.round with
  | none => l
  | some rd => autoVoteOneCore o l rd vid

/-- gameManager.ts `ensureAutoVotes`. -/
def ensureAutoVotes (o : RngOracle) (l : LobbyState) : LobbyState :=
  match l.round with
  | none => l
  | some _ => (activePlayers l).foldl (fun acc p => autoVoteOne o acc p.id) l

/-! ### Scoring (`calculateScores`) -/

/-- The per-entry accumulator `{ points, first, second, placements }`. -/
structure ScoreInfo where
  points : Int
  first : Nat
  second : Nat
  placements : List Nat
deriving DecidableEq, Repr

abbrev Scoreboard := List (String × ScoreInfo)

/-- `Math.max(1, participants.length - 1)`. -/
def optionsPerVote (l : LobbyState) : Nat :=
  max 1 ((activePlayers l).length - 1)

/-- The body of the `ranking.forEach((playerId, index) => ...)` callback:
award `optionsPerVote - index` points and update the mention counters and
placement histogram. -/
def bumpEntry (opv idx : Nat) (info : ScoreInfo) : ScoreInfo :=
  { points := info.points + ((opv : Int) - (idx : Int)),
    first := if idx = 0 then info.first + 1 else info.first,
    second := if idx = 1 then info.second + 1 else info.second,
    placements := info.placements.set idx (info.placements.getD idx 0 + 1) }

/-- Apply one rank position of a ranking to the scoreboard (silently skipped
when the ranked id has no scoreboard entry). -/
def award (opv : Nat) (sb : Scoreboard) (pid : String) (idx : Nat) : Scoreboard :=
  match mapGet sb pid with
  | none => sb
  | some info => mapSet sb pid (bumpEntry opv idx info)

/-- `ranking.forEach((playerId, index) => ...)`: fold the ranking through
`award` with increasing indices. -/
def applyVote (opv : Nat) : Scoreboard → List String → Nat → Scoreboard
  | sb, [], _ => sb
  | sb, pid :: rest, idx => applyVote opv (award opv sb pid idx) rest (idx + 1)

/-- Scoreboard initialization: one zeroed entry per participant. -/
def initScoreboard (participants : List PlayerState) (opv : Nat) : Scoreboard :=
  participants.foldl
    (fun m p => mapSet m p.id { points := 0, first := 0, second := 0, placements := List.replicate opv 0 }) []

/-- The vote loop of `calculateScores`. -/
def tallyVotes (opv : Nat) (votes : List (String × List String)) (sb : Scoreboard) : Scoreboard :=
  votes.foldl (fun m v => applyVote opv m v.2 0) sb

def surrogateInfo : ScoreInfo := { points := 0, first := 0, second := 0, placements := [] }

/-- `scoreboard.get(player.id)!` (always present for participants). -/
def entryFor (sb : Scoreboard) (p : PlayerState) : RoundResultEntryInternal :=
  let info := (mapGet sb p.id).getD surrogateInfo
  { playerId := p.id, points := info.points, firstPlaceVotes := info.first,
    secondPlaceVotes := info.second, placements := info.placements }

/-- The per-participant mutation inside the `.map`: merge the round points
into the cumulative score and update the best moment from this round's
submission. -/
def updateScoreAndMoment (rd : RoundInternalState) (info : ScoreInfo) (q : PlayerState) : PlayerState :=
  let q1 := { q with score := q.score + info.points }
  match mapGet rd.submissions q.id with
  | none => q1
  | some card =>
    let moment : HighlightMoment :=
      { card := card, points := info.points, situation := rd.situation, roundNumber := rd.roundNumber }
    match q1.bestMoment with
    | none => { q1 with bestMoment := some moment }
    | some bm => if moment.points > bm.points then { q1 with bestMoment := some moment } else q1

/-- The leaderboard comparator as a "may precede" boolean: descending points,
then descending first-place mentions, then descending second-place mentions,
then the seeded coin (`random() - 0.5 <= 0`) given by `tie`. -/
def entryLE (tie : RoundResultEntryInternal → RoundResultEntryInternal → Bool)
    (a b : RoundResultEntryInternal) : Bool :=
  if a.points = b.points then
    if a.firstPlaceVotes = b.firstPlaceVotes then
      if a.secondPlaceVotes = b.secondPlaceVotes then tie a b
      else decide (b.secondPlaceVotes < a.secondPlaceVotes)
    else decide (b.firstPlaceVotes < a.firstPlaceVotes)
  else decide (b.points < a.points)

/-- Stable insertion of one element under a "may precede" comparator. -/
def sortInsert {α : Type} (le : α → α → Bool) (x : α) : List α → List α
  | [] => [x]
  | y :: ys => if le x y then x :: y :: ys else y :: sortInsert le x ys

/-- `Array.prototype.sort(comparator)`: a stable comparison sort, modelled as
insertion sort. -/
def jsSort {α : Type} (le : α → α → Bool) : List α → List α
  | [] => []
  | x :: xs => sortInsert le x (jsSort le xs)

/-- gameManager.ts `calculateScores`: tally the Borda points, update the
voters' stored rankings, merge scores and best moments into the players, and
return the sorted leaderboard together with the mutated lobby. -/
def calculateScores (tie : RoundResultEntryInternal → RoundResultEntryInternal → Bool)
    (l : LobbyState) : List RoundResultEntryInternal × LobbyState :=
  match l.round with
  | none => ([], l)
  | some rd =>
    let participants := activePlayers l
    let opv := optionsPerVote l
    let sb := tallyVotes opv rd.votes (initScoreboard participants opv)
    let playersA := rd.votes.foldl
      (fun ps v => ps.map (fun q => if q.id == v.1 then { q with voteRanking := some v.2 } else q))
      l.players
    let entries := participants.map (entryFor sb)
    let playersB := participants.foldl
      (fun ps p => ps.map (fun q =>
        if q.id == p.id then updateScoreAndMoment rd ((mapGet sb p.id).getD surrogateInfo) q else q))
      playersA
    let ordered := jsSort (entryLE tie) entries
    (ordered, { l with players := playersB })

/-- The second half of `endVoting`: store the computed leaderboard, move to
round results, arm the results deadline. -/
def publishResults (o : RngOracle) (entries : List RoundResultEntryInternal)
    (l2 : LobbyState) : LobbyState :=
  match l2.round with
  | none => l2
  | some rd =>
    { l2 with
      phase := GamePhase.roundResults
      round := some { rd with
                      leaderboard := some entries
                      phase := GamePhase.roundResults
                      endsAt := some (o.now + RESULTS_DURATION_MS) } }

/-- gameManager.ts `endVoting`: auto-vote, score, store the leaderboard, move
to round results, arm the results deadline. -/
def endVoting (o : RngOracle) (l : LobbyState) : LobbyState :=
  match l.round with
  | none => l
  | some _ =>
    publishResults o (calculateScores o.tie (ensureAutoVotes o l)).1
      (calculateScores o.tie (ensureAutoVotes o l)).2

/-- gameManager.ts `finishRound`. -/
def finishRound (o : RngOracle) (l : LobbyState) : LobbyState :=
  match l.round with
  | none => l
  | some rd =>
    if (rd.roundNumber : Int) ≥ l.settings.rounds then
      { l with phase := GamePhase.finalResults, round := none }
    else
      beginRound o { l with phase := GamePhase.selection }

/-! ## Player actions: start, submit, vote -/

/-- The event-driven advance at the end of `submitMeme`: if everyone has
submitted, end the selection phase immediately. -/
def checkAllSubmitted (o : RngOracle) (l2 : LobbyState) : LobbyState :=
  if allSubmitted l2 then endSelection o l2 else l2

/-- Body of `submitMeme` once the round and the acting player are known. -/
def submitMemeCore (o : RngOracle) (l : LobbyState) (rd : RoundInternalState)
    (p : PlayerState) (pid memeId : String) : LobbyState :=
  if p.spectator then l
  else
    match p.hand.find? (fun c => c.id == memeId) with
    | none => l
    | some card => checkAllSubmitted o (applySubmission l rd pid card)

/-- gameManager.ts `submitMeme`. -/
def submitMeme (o : RngOracle) (l : LobbyState) (pid memeId : String) : LobbyState :=
  if l.phase ≠ GamePhase.selection then l
  else
    match l.round with
    | none => l
    | some rd =>
      match getPlayer l pid with
      | none => l
      | some p => submitMemeCore o l rd p pid memeId

/-- The event-driven advance at the end of `submitVote`: if every active
player has voted, end the voting phase immediately. -/
def checkAllVoted (o : RngOracle) (l2 : LobbyState) : LobbyState :=
  if allVotesIn l2 then endVoting o l2 else l2

/-- Body of `submitVote` once the round and the acting player are known:
the four validation checks against the valid target set, then the record. -/
def submitVoteCore (o : RngOracle) (l : LobbyState) (rd : RoundInternalState)
    (p : PlayerState) (pid : String) (ranking : List String) : LobbyState :=
  if p.spectator then l
  else
    if ((rd.submissions.map Prod.fst).filter (fun i => !(i == pid))).length = 0 then l
    else if ranking.length ≠ ((rd.submissions.map Prod.fst).filter (fun i => !(i == pid))).length then l
    else if ranking.dedup.length ≠ ((rd.submissions.map Prod.fst).filter (fun i => !(i == pid))).length then l
    else if !(ranking.all (fun i => ((rd.submissions.map Prod.fst).filter (fun i => !(i == pid))).contains i)) then l
    else checkAllVoted o (applyVoteRecord l rd pid ranking)

/-- gameManager.ts `submitVote`. -/
def submitVote (o : RngOracle) (l : LobbyState) (pid : String) (ranking : List String) : LobbyState :=
  if l.phase ≠ GamePhase.voting then l
  else
    match l.round with
    | none => l
    | some rd =>
      match getPlayer l pid with
      | none => l
      | some p => submitVoteCore o l rd p pid ranking

/-- One iteration of the dealing loop in `startGame`: reset the player and
pop `cardsPerPlayer` cards off the tail of the shared deck into their hand. -/
def dealOne (cardsPerPlayer : Nat) (l : LobbyState) (pid : String) : LobbyState :=
  let hand := l.deck.reverse.take cardsPerPlayer
  let deck2 := (l.deck.reverse.drop cardsPerPlayer).reverse
  { l with
    deck := deck2
    players := l.players.map (fun q =>
      if q.id == pid then
        { q with
          score := 0
          hand := hand
          submittedMemeId := none
          voteRanking := none
          bestMoment := none }
      else q) }

/-- The dealing loop of `startGame` over the active players. -/
def dealAll (cardsPerPlayer : Nat) (l : LobbyState) : LobbyState :=
  (activePlayers l).foldl (fun acc p => dealOne cardsPerPlayer acc p.id) l

/-- gameManager.ts `startGame`.  `fetch` is the content provider
(`fetchMemes`), `shuffleDeck` the Fisher-Yates shuffle.  Returns the boolean
result together with the post-call lobby.  `Math.ceil(n * 1.2)` is modelled
as the exact rational ceiling `(n * 6 + 4) / 5`. -/
def startGame (fetch : Nat → String → List MemeCard) (shuffleDeck : List MemeCard → List MemeCard)
    (o : RngOracle) (l : LobbyState) : Bool × LobbyState :=
  let players := activePlayers l
  if players.length < 2 then (false, l)
  else
    let l1 := { l with
                phase := GamePhase.selection
                usedSituations := []
                situationsPool := situationsForTheme l.settings.theme
                deck := []
                round := none }
    let cardsPerPlayer := (l.settings.rounds + 2).toNat
    let desiredCards := (players.length * cardsPerPlayer * 6 + 4) / 5
    let l2 := { l1 with deck := shuffleDeck (fetch desiredCards l.settings.theme) }
    (true, beginRound o (dealAll cardsPerPlayer l2))

/-! ## Derived observations used by the verification -/

/-- The non-strict leaderboard precedence encoded by the comparator keys:
strictly more points, or equal points and strictly more first-place
mentions, or those equal and at least as many second-place mentions.  Two
entries with identical key triples precede each other both ways (their
relative order is the seeded tie-break). -/
def entryBeats (a b : RoundResultEntryInternal) : Prop :=
  b.points < a.points ∨
    (a.points = b.points ∧
      (b.firstPlaceVotes < a.firstPlaceVotes ∨
        (a.firstPlaceVotes = b.firstPlaceVotes ∧
          (b.secondPlaceVotes < a.secondPlaceVotes ∨
            a.secondPlaceVotes = b.secondPlaceVotes))))

def sbKeys (sb : Scoreboard) : List String := sb.map Prod.fst

def sbTotal (sb : Scoreboard) : Int := (sb.map (fun e => e.2.points)).sum

/-- Running total of the awards `(o - i) + (o - (i+1)) + ...` over `n` rank
positions starting at index `i`. -/
def awardSum (o i : Int) : Nat → Int
  | 0 => 0
  | n + 1 => (o - i) + awardSum o (i + 1) n

/-- The round number of the active round, if any. -/
def roundNum (l : LobbyState) : Option Nat := l.round.map (fun rd => rd.roundNumber)

/-! ## Concrete fixtures used by counterexamples and witnesses -/

/-- A deterministic oracle: every random draw picks index 0, shuffles are the
identity, the tie coin always says "keep". -/
def oracle0 : RngOracle :=
  { pickSituationIdx := 0, roundSeed := 0, autoPickIdx := fun _ => 0,
    shuffleSubs := id, autoRank := fun _ opts => opts, tie := fun _ _ => true, now := 0 }

def tieTrue : RoundResultEntryInternal → RoundResultEntryInternal → Bool := fun _ _ => true

/-- A deterministic content provider producing `n` distinct cards. -/
def fetch0 : Nat → String → List MemeCard :=
  fun n _ => (List.range n).map (fun i => { id := "card-" ++ toString i, url := "", alt := none })

def prompt0 : SituationPrompt := { id := "fun-0", text := "prompt", theme := "fun" }

def mcard (i : Nat) : MemeCard := { id := "m" ++ toString i, url := "", alt := none }

/-- A connected active player with an empty hand. -/
def basePlayer (pid : String) : PlayerState :=
  { id := pid, name := pid, avatar := "", isHost := false, connected := true,
    spectator := false, socketId := none, score := 0, hand := [],
    submittedMemeId := none, voteRanking := none, bestMoment := none }

def exSettings : LobbySettings := { rounds := 5, theme := "fun", maxPlayers := 5 }

/-- Voting-phase round with three submitters and one recorded ranking
["p2", "p3"] by voter "p1". -/
def exRound3 : RoundInternalState :=
  { roundNumber := 1, situation := prompt0,
    submissions := [("p1", mcard 1), ("p2", mcard 2), ("p3", mcard 3)],
    submissionSlots := [], votes := [("p1", ["p2", "p3"])],
    phase := GamePhase.voting, endsAt := none, seed := 0, leaderboard := none }

def exLobby3 : LobbyState :=
  { id := "L3", settings := exSettings, hostId := "p1",
    players := [basePlayer "p1", basePlayer "p2", basePlayer "p3"], deck := [],
    usedSituations := [], situationsPool := [], phase := GamePhase.voting,
    round := some exRound3 }

/-- Voting-phase round with two submitters, both votes recorded. -/
def exRound2 : RoundInternalState :=
  { roundNumber := 1, situation := prompt0,
    submissions := [("p1", mcard 1), ("p2", mcard 2)],
    submissionSlots := [], votes := [("p1", ["p2"]), ("p2", ["p1"])],
    phase := GamePhase.voting, endsAt := none, seed := 0, leaderboard := none }

def exLobby2 : LobbyState :=
  { id := "L2", settings := exSettings, hostId := "p1",
    players := [basePlayer "p1", basePlayer "p2"], deck := [],
    usedSituations := [], situationsPool := [], phase := GamePhase.voting,
    round := some exRound2 }

/-- Voting-phase round whose only submission belongs to the voter: the valid
target set of "p1" is empty. -/
def exRound4 : RoundInternalState :=
  { roundNumber := 1, situation := prompt0,
    submissions := [("p1", mcard 1)],
    submissionSlots := [], votes := [],
    phase := GamePhase.voting, endsAt := none, seed := 0, leaderboard := none }

def exLobby4 : LobbyState :=
  { id := "L4", settings := exSettings, hostId := "p1",
    players := [basePlayer "p1"], deck := [],
    usedSituations := [], situationsPool := [], phase := GamePhase.voting,
    round := some exRound4 }

/-- Player who already submitted card "m1" this round and still holds "m2". -/
def exPlayer5 : PlayerState :=
  { basePlayer "p1" with submittedMemeId := some "m1", hand := [mcard 2] }

def exRound5 : RoundInternalState :=
  { roundNumber := 1, situation := prompt0,
    submissions := [("p1", mcard 1)],
    submissionSlots := [], votes := [],
    phase := GamePhase.selection, endsAt := none, seed := 0, leaderboard := none }

def exLobby5 : LobbyState :=
  { id := "L5", settings := exSettings, hostId := "p1",
    players := [exPlayer5, basePlayer "p2"], deck := [],
    usedSituations := [], situationsPool := [], phase := GamePhase.selection,
    round := some exRound5 }

/-- A pre-game lobby with a single active player. -/
def exLobbySolo : LobbyState :=
  { id := "LS", settings := exSettings, hostId := "p1",
    players := [basePlayer "p1"], deck := [],
    usedSituations := [], situationsPool := [], phase := GamePhase.lobby,
    round := none }

/-- A spectator who is currently recorded as host. -/
def exHostSpec : PlayerState := { basePlayer "h" with spectator := true, isHost := true }

/-- Pre-game lobby whose recorded host is a spectator, with an eligible
connected active replacement "p2". -/
def exLobby8 : LobbyState :=
  { id := "L8", settings := exSettings, hostId := "h",
    players := [exHostSpec, basePlayer "p2"], deck := [],
    usedSituations := [], situationsPool := [], phase := GamePhase.lobby,
    round := none }

/-- A connected non-spectator host owning socket "s1". -/
def exHostConn : PlayerState := { basePlayer "h" with isHost := true, socketId := some "s1" }

/-- Pre-game lobby with connected host "h" (socket "s1") and a second
connected active player "p2". -/
def exLobby8d : LobbyState :=
  { id := "L8d", settings := exSettings, hostId := "h",
    players := [exHostConn, basePlayer "p2"], deck := [],
    usedSituations := [], situationsPool := [], phase := GamePhase.lobby,
    round := none }

def exSettingsTight : LobbySettings := { rounds := 5, theme := "fun", maxPlayers := 2 }

/-- Pre-game lobby already holding as many active players as `maxPlayers`. -/
def exLobbyFull : LobbyState :=
  { id := "LF", settings := exSettingsTight, hostId := "p1",
    players := [basePlayer "p1", basePlayer "p2"], deck := [],
    usedSituations := [], situationsPool := [], phase := GamePhase.lobby,
    round := none }

/-- Join request of a brand-new non-spectator player. -/
def joinOptsActive : JoinOpts :=
  { playerId := none, name := none, avatar := none, spectator := false }

/-! ## Reachability: the external operations as a step relation -/

/-- The settings/round-number observation preserved by most operations. -/
def srObs (l : LobbyState) : LobbySettings × Option Nat := (l.settings, roundNum l)

/-- The `(lobby.round?.roundNumber ?? 0)` read at the start of `beginRound`. -/
def prevRound (l : LobbyState) : Nat :=
  (match l.round with | some rd => rd.roundNumber | none => 0)

/-- The invariant of claim C9: the configured round count is positive and the
active round (if any) does not exceed it. -/
def RoundBound (l : LobbyState) : Prop :=
  1 ≤ l.settings.rounds
  ∧ ∀ rd, l.round = some rd → (rd.roundNumber : Int) ≤ l.settings.rounds

/-- One externally triggerable operation on a stored lobby: a socket event
(join, connect/disconnect, profile update, settings update, start, submit,
vote) or a timer callback (`endSelection`, `endVoting`, `finishRound`). -/
inductive Step : LobbyState → LobbyState → Prop where
  | join (freshId defaultName defaultAvatar : String) (l : LobbyState) (opts : JoinOpts) :
      Step l (joinLobby freshId defaultName defaultAvatar l opts).1
  | connect (l : LobbyState) (pid sid : String) : Step l (markPlayerConnected l pid sid)
  | disconnect (l : LobbyState) (sid : String) : Step l (markPlayerDisconnected l sid)
  | renamePlayer (l : LobbyState) (pid name : String) : Step l (updatePlayerName l pid name)
  | newAvatar (l : LobbyState) (pid av : String) : Step l (updatePlayerAvatar l pid av)
  | settingsUpdate (l : LobbyState) (pid : String) (s : LobbySettings) :
      Step l (afterUpdate (updateSettings l pid s))
  | start (fetch : Nat → String → List MemeCard) (shuffleDeck : List MemeCard → List MemeCard)
      (o : RngOracle) (l : LobbyState) : Step l (startGame fetch shuffleDeck o l).2
  | meme (o : RngOracle) (l : LobbyState) (pid memeId : String) :
      Step l (submitMeme o l pid memeId)
  | vote (o : RngOracle) (l : LobbyState) (pid : String) (ranking : List String) :
      Step l (submitVote o l pid ranking)
  | selTimer (o : RngOracle) (l : LobbyState) : Step l (endSelection o l)
  | voteTimer (o : RngOracle) (l : LobbyState) : Step l (endVoting o l)
  | resultsTimer (o : RngOracle) (l : LobbyState) : Step l (finishRound o l)

/-- `Step` restricted by the amendment hypothesis: a settings update never
lowers the configured round count below the active round number. -/
inductive BoundedStep : LobbyState → LobbyState → Prop where
  | join (freshId defaultName defaultAvatar : String) (l : LobbyState) (opts : JoinOpts) :
      BoundedStep l (joinLobby freshId defaultName defaultAvatar l opts).1
  | connect (l : LobbyState) (pid sid : String) : BoundedStep l (markPlayerConnected l pid sid)
  | disconnect (l : LobbyState) (sid : String) : BoundedStep l (markPlayerDisconnected l sid)
  | renamePlayer (l : LobbyState) (pid name : String) :
      BoundedStep l (updatePlayerName l pid name)
  | newAvatar (l : LobbyState) (pid av : String) : BoundedStep l (updatePlayerAvatar l pid av)
  | settingsUpdate (l : LobbyState) (pid : String) (s : LobbySettings)
      (hguard : ∀ rd, l.round = some rd →
        (rd.roundNumber : Int) ≤ (sanitizeSettings s).rounds) :
      BoundedStep l (afterUpdate (updateSettings l pid s))
  | start (fetch : Nat → String → List MemeCard) (shuffleDeck : List MemeCard → List MemeCard)
      (o : RngOracle) (l : LobbyState) : BoundedStep l (startGame fetch shuffleDeck o l).2
  | meme (o : RngOracle) (l : LobbyState) (pid memeId : String) :
      BoundedStep l (submitMeme o l pid memeId)
  | vote (o : RngOracle) (l : LobbyState) (pid : String) (ranking : List String) :
      BoundedStep l (submitVote o l pid ranking)
  | selTimer (o : RngOracle) (l : LobbyState) : BoundedStep l (endSelection o l)
  | voteTimer (o : RngOracle) (l : LobbyState) : BoundedStep l (endVoting o l)
  | resultsTimer (o : RngOracle) (l : LobbyState) : BoundedStep l (finishRound o l)

/-! ### A concrete six-round trace lowering the round count mid-game -/

/-- Freshly created lobby "L" with host "h" and 6 configured rounds. -/
def traceL0 : LobbyState :=
  ((createLobby "L" "h" "Host" "A" { rounds := 6, theme := "fun", maxPlayers := 5 }).map
    Prod.fst).getD exLobbySolo

/-- After a second active player "p2" joins. -/
def traceLJ : LobbyState := (joinLobby "p2" "Guest" "B" traceL0 joinOptsActive).1

/-- After the host starts the game (round 1 begins). -/
def traceLS : LobbyState := (startGame fetch0 id oracle0 traceLJ).2

/-- One full timer-driven round: selection deadline, voting deadline, results
deadline. -/
def cycleStep (l : LobbyState) : LobbyState :=
  finishRound oracle0 (endVoting oracle0 (endSelection oracle0 l))

/-- After five full timer-driven rounds: round 6 is active. -/
def traceL6 : LobbyState :=
  cycleStep (cycleStep (cycleStep (cycleStep (cycleStep traceLS))))

/-- After the host lowers the round count to 5 during round 6. -/
def traceLF : LobbyState :=
  afterUpdate (updateSettings traceL6 "h" { rounds := 5, theme := "fun", maxPlayers := 5 })

/-! ## Generic lemmas about the map model -/

theorem mapGet_nil {α : Type} (k : String) : mapGet ([] : List (String × α)) k = none := rfl

theorem mapGet_cons {α : Type} (e : String × α) (rest : List (String × α)) (k : String) :
    mapGet (e :: rest) k = if e.1 == k then some e.2 else mapGet rest k := by
  by_cases h : (e.1 == k) = true
  · simp [mapGet, List.find?_cons_of_pos, h]
  · simp [mapGet, List.find?_cons_of_neg, h]

theorem mapAssign_get_self {α : Type} (m : List (String × α)) (k : String) (v : α)
    (h : (mapGet m k).isSome = true) :
    mapGet (m.map (fun e => if e.1 == k then (k, v) else e)) k = some v := by
  induction m with
  | nil => simp [mapGet_nil] at h
  | cons e rest ih =>
    by_cases he1 : e.1 = k
    · simp [mapGet_cons, he1]
    · simp [mapGet_cons, he1] at h ⊢
      simpa using ih h

theorem mapAssign_get_ne {α : Type} (m : List (String × α)) (k k' : String) (v : α)
    (h : k' ≠ k) :
    mapGet (m.map (fun e => if e.1 == k then (k, v) else e)) k' = mapGet m k' := by
  induction m with
  | nil => simp
  | cons e rest ih =>
    by_cases he1 : e.1 = k
    · have hkk : ¬ k = k' := fun hk => h hk.symm
      have hek : ¬ e.1 = k' := by rw [he1]; exact hkk
      simp [mapGet_cons, he1, hkk, hek] at ih ⊢
      exact ih
    · simp [mapGet_cons, he1] at ih ⊢
      by_cases he2 : e.1 = k'
      · simp [he2, h]
      · simp [he2]
        exact ih

theorem mapAssign_keys {α : Type} (m : List (String × α)) (k : String) (v : α) :
    (m.map (fun e => if e.1 == k then (k, v) else e)).map Prod.fst = m.map Prod.fst := by
  rw [List.map_map]
  refine List.map_congr_left ?_
  intro e _
  by_cases he1 : e.1 = k
  · simp [Function.comp, he1]
  · simp [Function.comp, he1]

theorem mapAppend_get_self {α : Type} (m : List (String × α)) (k : String) (v : α)
    (h : mapGet m k = none) : mapGet (m ++ [(k, v)]) k = some v := by
  induction m with
  | nil => simp [mapGet_cons]
  | cons e rest ih =>
    rw [mapGet_cons] at h
    by_cases he : (e.1 == k) = true
    · simp [he] at h
    · simp only [he, if_neg] at h
      rw [List.cons_append, mapGet_cons]
      simp only [he, if_neg]
      exact ih h

theorem mapAppend_get_ne {α : Type} (m : List (String × α)) (k k' : String) (v : α)
    (h : k' ≠ k) : mapGet (m ++ [(k, v)]) k' = mapGet m k' := by
  induction m with
  | nil =>
    have hkk : ¬ ((k : String) == k') = true := by
      simp only [beq_iff_eq]
      exact fun hk => h hk.symm
    simp [mapGet_cons, hkk]
  | cons e rest ih =>
    rw [List.cons_append, mapGet_cons, mapGet_cons]
    by_cases he : (e.1 == k') = true
    · simp [he]
    · simp only [he, if_neg]
      exact ih

theorem any_eq_get_isSome {α : Type} (m : List (String × α)) (k : String) :
    m.any (fun e => e.1 == k) = (mapGet m k).isSome := by
  induction m with
  | nil => rfl
  | cons e rest ih =>
    rw [List.any_cons, mapGet_cons]
    by_cases he : (e.1 == k) = true
    · simp [he]
    · simp only [he, Bool.false_or, if_neg]
      exact ih

theorem mapGet_mapSet_self {α : Type} (m : List (String × α)) (k : String) (v : α) :
    mapGet (mapSet m k v) k = some v := by
  unfold mapSet
  by_cases h : m.any (fun e => e.1 == k) = true
  · rw [if_pos h]
    exact mapAssign_get_self m k v (by rw [← any_eq_get_isSome]; exact h)
  · rw [if_neg h]
    have hn : mapGet m k = none := by
      rw [any_eq_get_isSome] at h
      exact Option.not_isSome_iff_eq_none.mp (by simpa using h)
    exact mapAppend_get_self m k v hn

theorem mapGet_mapSet_ne {α : Type} (m : List (String × α)) (k k' : String) (v : α)
    (h : k' ≠ k) : mapGet (mapSet m k v) k' = mapGet m k' := by
  unfold mapSet
  by_cases hany : m.any (fun e => e.1 == k) = true
  · rw [if_pos hany]
    exact mapAssign_get_ne m k k' v h
  · rw [if_neg hany]
    exact mapAppend_get_ne m k k' v h

theorem mapSet_keys_of_get {α : Type} (m : List (String × α)) (k : String) (v : α)
    (h : (mapGet m k).isSome = true) :
    (mapSet m k v).map Prod.fst = m.map Prod.fst := by
  have hany : m.any (fun e => e.1 == k) = true := by rw [any_eq_get_isSome]; exact h
  unfold mapSet
  rw [if_pos hany]
  exact mapAssign_keys m k v

theorem mapGet_isSome_of_key_mem {α : Type} (m : List (String × α)) (k : String)
    (h : k ∈ m.map Prod.fst) : (mapGet m k).isSome = true := by
  induction m with
  | nil => simp at h
  | cons e rest ih =>
    rw [mapGet_cons]
    by_cases he : (e.1 == k) = true
    · simp [he]
    · have he1 : ¬ e.1 = k := by simpa using he
      simp only [List.map_cons, List.mem_cons] at h
      rcases h with h | h
      · exact absurd h.symm he1
      · simp only [he, if_neg]
        exact ih h

theorem mapGet_eq_none_of_key_not_mem {α : Type} (m : List (String × α)) (k : String)
    (h : k ∉ m.map Prod.fst) : mapGet m k = none := by
  induction m with
  | nil => rfl
  | cons e rest ih =>
    simp only [List.map_cons, List.mem_cons, not_or] at h
    rw [mapGet_cons]
    have he : ¬ (e.1 == k) = true := by
      simp only [beq_iff_eq]
      exact fun hk => h.1 hk.symm
    simp only [he, if_neg]
    exact ih h.2

/-- Folding a function that leaves an observation `g` unchanged leaves the
observation of the fold unchanged. -/
theorem foldl_fixes {α β γ : Type} (g : α → γ) (f : α → β → α)
    (h : ∀ a b, g (f a b) = g a) :
    ∀ (xs : List β) (a : α), g (xs.foldl f a) = g a := by
  intro xs
  induction xs with
  | nil => intro a; rfl
  | cons x rest ih => intro a; rw [List.foldl_cons, ih, h]

/-! ## Sort lemmas -/

theorem mem_sortInsert {α : Type} (le : α → α → Bool) (x z : α) (l : List α) :
    z ∈ sortInsert le x l ↔ z = x ∨ z ∈ l := by
  induction l with
  | nil => simp [sortInsert]
  | cons y ys ih =>
    by_cases h : le x y
    · simp [sortInsert, h]
    · simp [sortInsert, h, ih]
      tauto

theorem sortInsert_perm {α : Type} (le : α → α → Bool) (x : α) (l : List α) :
    List.Perm (sortInsert le x l) (x :: l) := by
  induction l with
  | nil => simp [sortInsert]
  | cons y ys ih =>
    by_cases h : le x y
    · simp [sortInsert, h]
    · simp only [sortInsert, h, if_neg]
      exact (List.Perm.cons y ih).trans (List.Perm.swap x y ys)

theorem jsSort_perm {α : Type} (le : α → α → Bool) (l : List α) :
    List.Perm (jsSort le l) l := by
  induction l with
  | nil => simp [jsSort]
  | cons x xs ih =>
    exact (sortInsert_perm le x (jsSort le xs)).trans (List.Perm.cons x ih)

theorem sortInsert_pairwise {α : Type} {R : α → α → Prop} (le : α → α → Bool)
    (hT : ∀ a b, le a b = true → R a b) (hF : ∀ a b, le a b = false → R b a)
    (htrans : ∀ {a b c}, R a b → R b c → R a c) (x : α) :
    ∀ l : List α, l.Pairwise R → (sortInsert le x l).Pairwise R := by
  intro l
  induction l with
  | nil => intro _; simp [sortInsert]
  | cons y ys ih =>
    intro hp
    rcases List.pairwise_cons.mp hp with ⟨hy, hys⟩
    by_cases h : le x y
    · simp only [sortInsert, h, if_pos]
      refine List.pairwise_cons.mpr ⟨?_, hp⟩
      intro z hz
      rcases List.mem_cons.mp hz with rfl | hz
      · exact hT x z h
      · exact htrans (hT x y h) (hy z hz)
    · simp only [sortInsert, h, if_neg]
      refine List.pairwise_cons.mpr ⟨?_, ih hys⟩
      intro z hz
      rcases (mem_sortInsert le x z ys).mp hz with hz | hz
      · rw [hz]
        exact hF x y (by simpa using h)
      · exact hy z hz

theorem jsSort_pairwise {α : Type} {R : α → α → Prop} (le : α → α → Bool)
    (hT : ∀ a b, le a b = true → R a b) (hF : ∀ a b, le a b = false → R b a)
    (htrans : ∀ {a b c}, R a b → R b c → R a c) :
    ∀ l : List α, (jsSort le l).Pairwise R := by
  intro l
  induction l with
  | nil => simp [jsSort]
  | cons x xs ih => exact sortInsert_pairwise le hT hF htrans x (jsSort le xs) ih

/-! ## The leaderboard order -/

theorem entryBeats_trans {a b c : RoundResultEntryInternal}
    (hab : entryBeats a b) (hbc : entryBeats b c) : entryBeats a c := by
  unfold entryBeats at *
  omega

theorem entryLE_true_imp (tie : RoundResultEntryInternal → RoundResultEntryInternal → Bool)
    (a b : RoundResultEntryInternal) (h : entryLE tie a b = true) : entryBeats a b := by
  unfold entryLE at h
  unfold entryBeats
  split_ifs at h with h1 h2 h3
  · exact Or.inr ⟨h1, Or.inr ⟨h2, Or.inr h3⟩⟩
  · simp only [decide_eq_true_eq] at h
    omega
  · simp only [decide_eq_true_eq] at h
    omega
  · simp only [decide_eq_true_eq] at h
    omega

theorem entryLE_false_imp (tie : RoundResultEntryInternal → RoundResultEntryInternal → Bool)
    (a b : RoundResultEntryInternal) (h : entryLE tie a b = false) : entryBeats b a := by
  unfold entryLE at h
  unfold entryBeats
  split_ifs at h with h1 h2 h3
  · exact Or.inr ⟨h1.symm, Or.inr ⟨h2.symm, Or.inr h3.symm⟩⟩
  · simp only [decide_eq_false_iff_not] at h
    omega
  · simp only [decide_eq_false_iff_not] at h
    omega
  · simp only [decide_eq_false_iff_not] at h
    omega

/-! ## Borda sum machinery -/

theorem award_keys (opv : Nat) (sb : Scoreboard) (pid : String) (idx : Nat) :
    sbKeys (award opv sb pid idx) = sbKeys sb := by
  unfold award
  cases hg : mapGet sb pid with
  | none => rfl
  | some info =>
    exact mapSet_keys_of_get sb pid _ (by rw [hg]; rfl)

theorem mapAssign_id (sb : Scoreboard) (pid : String) (v : String × ScoreInfo)
    (h : ∀ e ∈ sb, ¬ e.1 = pid) :
    sb.map (fun e => if e.1 == pid then v else e) = sb := by
  induction sb with
  | nil => rfl
  | cons e rest ih =>
    have he : ¬ e.1 = pid := h e (List.mem_cons_self e rest)
    have hb : ¬ (e.1 == pid) = true := by simpa using he
    show (if e.1 == pid then v else e) :: rest.map (fun e => if e.1 == pid then v else e) = e :: rest
    rw [if_neg hb, ih (fun f hf => h f (List.mem_cons_of_mem e hf))]

theorem mapAssign_total (sb : Scoreboard) (pid : String) (newInfo : ScoreInfo)
    (hnd : (sbKeys sb).Nodup) (info : ScoreInfo) (hget : mapGet sb pid = some info) :
    sbTotal (sb.map (fun e => if e.1 == pid then (pid, newInfo) else e))
      = sbTotal sb - info.points + newInfo.points := by
  induction sb with
  | nil => simp [mapGet_nil] at hget
  | cons e rest ih =>
    rw [mapGet_cons] at hget
    rcases List.nodup_cons.mp hnd with ⟨hne, hndr⟩
    by_cases he : e.1 = pid
    · have hb : (e.1 == pid) = true := by simpa using he
      rw [if_pos hb] at hget
      injection hget with hinfo
      have hrest : rest.map (fun f => if f.1 == pid then (pid, newInfo) else f) = rest := by
        refine mapAssign_id rest pid (pid, newInfo) ?_
        intro f hf hfp
        apply hne
        have hfm : f.1 ∈ List.map Prod.fst rest := List.mem_map_of_mem Prod.fst hf
        rw [hfp] at hfm
        rw [he]
        exact hfm
      show sbTotal ((if e.1 == pid then (pid, newInfo) else e)
            :: rest.map (fun f => if f.1 == pid then (pid, newInfo) else f))
          = sbTotal (e :: rest) - info.points + newInfo.points
      rw [if_pos hb, hrest]
      show newInfo.points + sbTotal rest = (e.2.points + sbTotal rest) - info.points + newInfo.points
      rw [hinfo]
      ring
    · have hb : ¬ (e.1 == pid) = true := by simpa using he
      rw [if_neg hb] at hget
      show sbTotal ((if e.1 == pid then (pid, newInfo) else e)
            :: rest.map (fun f => if f.1 == pid then (pid, newInfo) else f))
          = sbTotal (e :: rest) - info.points + newInfo.points
      rw [if_neg hb]
      show e.2.points + sbTotal (rest.map (fun f => if f.1 == pid then (pid, newInfo) else f))
          = (e.2.points + sbTotal rest) - info.points + newInfo.points
      rw [ih hndr hget]
      ring

theorem award_total (opv : Nat) (sb : Scoreboard) (pid : String) (idx : Nat)
    (hnd : (sbKeys sb).Nodup) (hmem : pid ∈ sbKeys sb) :
    sbTotal (award opv sb pid idx) = sbTotal sb + ((opv : Int) - (idx : Int)) := by
  have hs : (mapGet sb pid).isSome = true := mapGet_isSome_of_key_mem sb pid hmem
  obtain ⟨info, hget⟩ := Option.isSome_iff_exists.mp hs
  have ha : award opv sb pid idx = mapSet sb pid (bumpEntry opv idx info) := by
    unfold award
    rw [hget]
  rw [ha]
  unfold mapSet
  have hany : sb.any (fun e => e.1 == pid) = true := by
    rw [any_eq_get_isSome, hget]; rfl
  rw [if_pos hany, mapAssign_total sb pid _ hnd info hget]
  show sbTotal sb - info.points + (info.points + ((opv : Int) - (idx : Int))) = _
  ring

theorem awardSum_shift (n : Nat) : ∀ o i : Int, awardSum o (i + 1) n = awardSum (o - 1) i n := by
  induction n with
  | zero => intro o i; rfl
  | succ m ih =>
    intro o i
    show (o - (i + 1)) + awardSum o (i + 1 + 1) m = ((o - 1) - i) + awardSum (o - 1) (i + 1) m
    rw [ih o (i + 1)]
    ring_nf

theorem awardSum_diag : ∀ n : Nat, 2 * awardSum (n : Int) 0 n = (n : Int) * ((n : Int) + 1) := by
  intro n
  induction n with
  | zero => rfl
  | succ m ih =>
    show 2 * (((m : Int) + 1 - 0) + awardSum ((m : Int) + 1) (0 + 1) m) = _
    rw [show ((0 : Int) + 1) = 0 + 1 by rfl, awardSum_shift m ((m : Int) + 1) 0]
    have : ((m : Int) + 1 - 1) = (m : Int) := by ring
    rw [this]
    push_cast
    linarith

theorem applyVote_keys (opv : Nat) (r : List String) :
    ∀ (sb : Scoreboard) (idx : Nat), sbKeys (applyVote opv sb r idx) = sbKeys sb := by
  induction r with
  | nil => intro sb idx; rfl
  | cons p rest ih =>
    intro sb idx
    show sbKeys (applyVote opv (award opv sb p idx) rest (idx + 1)) = sbKeys sb
    rw [ih (award opv sb p idx) (idx + 1), award_keys]

theorem applyVote_total (opv : Nat) (r : List String) :
    ∀ (sb : Scoreboard) (idx : Nat), (sbKeys sb).Nodup → (∀ p ∈ r, p ∈ sbKeys sb) →
      sbTotal (applyVote opv sb r idx) = sbTotal sb + awardSum (opv : Int) (idx : Int) r.length := by
  induction r with
  | nil => intro sb idx _ _; simp [applyVote, awardSum]
  | cons p rest ih =>
    intro sb idx hnd hmem
    show sbTotal (applyVote opv (award opv sb p idx) rest (idx + 1))
        = sbTotal sb + awardSum (opv : Int) (idx : Int) (rest.length + 1)
    have hnd1 : (sbKeys (award opv sb p idx)).Nodup := by rw [award_keys]; exact hnd
    have hmem1 : ∀ q ∈ rest, q ∈ sbKeys (award opv sb p idx) := by
      intro q hq
      rw [award_keys]
      exact hmem q (List.mem_cons_of_mem p hq)
    rw [ih (award opv sb p idx) (idx + 1) hnd1 hmem1,
        award_total opv sb p idx hnd (hmem p (List.mem_cons_self p rest))]
    show sbTotal sb + ((opv : Int) - (idx : Int)) + awardSum (opv : Int) ((idx : Int) + 1) rest.length
        = sbTotal sb + (((opv : Int) - (idx : Int)) + awardSum (opv : Int) ((idx : Int) + 1) rest.length)
    ring

theorem tallyVotes_keys (opv : Nat) (votes : List (String × List String)) :
    ∀ sb : Scoreboard, sbKeys (tallyVotes opv votes sb) = sbKeys sb := by
  induction votes with
  | nil => intro sb; rfl
  | cons v rest ih =>
    intro sb
    show sbKeys (tallyVotes opv rest (applyVote opv sb v.2 0)) = sbKeys sb
    rw [ih (applyVote opv sb v.2 0), applyVote_keys]

theorem tallyVotes_total (opv : Nat) (votes : List (String × List String)) :
    ∀ sb : Scoreboard, (sbKeys sb).Nodup → (∀ v ∈ votes, ∀ p ∈ v.2, p ∈ sbKeys sb) →
      sbTotal (tallyVotes opv votes sb)
        = sbTotal sb + (votes.map (fun v => awardSum (opv : Int) 0 v.2.length)).sum := by
  induction votes with
  | nil => intro sb _ _; simp [tallyVotes]
  | cons v rest ih =>
    intro sb hnd hmem
    show sbTotal (tallyVotes opv rest (applyVote opv sb v.2 0))
        = sbTotal sb + (((v :: rest).map (fun w => awardSum (opv : Int) 0 w.2.length)).sum)
    have hnd1 : (sbKeys (applyVote opv sb v.2 0)).Nodup := by rw [applyVote_keys]; exact hnd
    have hmem1 : ∀ w ∈ rest, ∀ p ∈ w.2, p ∈ sbKeys (applyVote opv sb v.2 0) := by
      intro w hw p hp
      rw [applyVote_keys]
      exact hmem w (List.mem_cons_of_mem v hw) p hp
    rw [ih (applyVote opv sb v.2 0) hnd1 hmem1,
        applyVote_total opv v.2 sb 0 hnd (hmem v (List.mem_cons_self v rest))]
    simp only [List.map_cons, List.sum_cons]
    push_cast
    ring

theorem initScoreboard_spec (opv : Nat) (ps : List PlayerState) :
    ∀ sb : Scoreboard, (∀ p ∈ ps, p.id ∉ sbKeys sb) → (ps.map (fun p => p.id)).Nodup →
      sbKeys (ps.foldl (fun m p =>
          mapSet m p.id { points := 0, first := 0, second := 0, placements := List.replicate opv 0 }) sb)
          = sbKeys sb ++ ps.map (fun p => p.id) ∧
      sbTotal (ps.foldl (fun m p =>
          mapSet m p.id { points := 0, first := 0, second := 0, placements := List.replicate opv 0 }) sb)
          = sbTotal sb := by
  induction ps with
  | nil => intro sb _ _; simp
  | cons p rest ih =>
    intro sb hdis hnd
    have hp : p.id ∉ sbKeys sb := hdis p (List.mem_cons_self p rest)
    have hset : mapSet sb p.id
        { points := 0, first := 0, second := 0, placements := List.replicate opv 0 }
        = sb ++ [(p.id, { points := 0, first := 0, second := 0, placements := List.replicate opv 0 })] := by
      unfold mapSet
      have hany : ¬ sb.any (fun e => e.1 == p.id) = true := by
        rw [any_eq_get_isSome]
        rw [mapGet_eq_none_of_key_not_mem sb p.id hp]
        simp
      rw [if_neg hany]
    rcases List.nodup_cons.mp hnd with ⟨hpr, hndr⟩
    have hdis1 : ∀ q ∈ rest, q.id ∉ sbKeys (sb ++ [(p.id, { points := 0, first := 0, second := 0, placements := List.replicate opv 0 })]) := by
      intro q hq
      unfold sbKeys
      rw [List.map_append]
      intro hmem
      rcases List.mem_append.mp hmem with hmem | hmem
      · exact hdis q (List.mem_cons_of_mem p hq) hmem
      · simp only [List.map_cons, List.map_nil, List.mem_singleton] at hmem
        have hq2 : q.id ∈ List.map (fun p => p.id) rest := List.mem_map_of_mem (fun p => p.id) hq
        rw [hmem] at hq2
        exact hpr hq2
    have := ih (sb ++ [(p.id, { points := 0, first := 0, second := 0, placements := List.replicate opv 0 })]) hdis1 hndr
    constructor
    · show sbKeys (rest.foldl _ (mapSet sb p.id _)) = _
      rw [hset, this.1]
      unfold sbKeys
      simp
    · show sbTotal (rest.foldl _ (mapSet sb p.id _)) = _
      rw [hset, this.2]
      unfold sbTotal
      simp

theorem entries_total (ps : List PlayerState) :
    ∀ sb : Scoreboard, sbKeys sb = ps.map (fun p => p.id) → (ps.map (fun p => p.id)).Nodup →
      ((ps.map (entryFor sb)).map (fun e => e.points)).sum = sbTotal sb := by
  induction ps with
  | nil =>
    intro sb hk _
    unfold sbKeys at hk
    simp only [List.map_nil] at hk
    have hsb : sb = [] := List.map_eq_nil_iff.mp hk
    rw [hsb]
    simp [sbTotal]
  | cons p rest ih =>
    intro sb hk hnd
    cases sb with
    | nil => simp [sbKeys] at hk
    | cons e sbrest =>
      unfold sbKeys at hk
      simp only [List.map_cons, List.cons.injEq] at hk
      rcases hk with ⟨hep, hkr⟩
      rcases List.nodup_cons.mp hnd with ⟨hpr, hndr⟩
      have hne : ∀ q ∈ rest, mapGet (e :: sbrest) q.id = mapGet sbrest q.id := by
        intro q hq
        rw [mapGet_cons]
        have h1 : ¬ e.1 = q.id := by
          rw [hep]
          intro hqq
          have hq2 : q.id ∈ List.map (fun p => p.id) rest := List.mem_map_of_mem (fun p => p.id) hq
          rw [← hqq] at hq2
          exact hpr hq2
        have hb : ¬ (e.1 == q.id) = true := by simpa using h1
        rw [if_neg hb]
      have hmapeq : rest.map (entryFor (e :: sbrest)) = rest.map (entryFor sbrest) := by
        refine List.map_congr_left ?_
        intro q hq
        unfold entryFor
        rw [hne q hq]
      have hself : (entryFor (e :: sbrest) p).points = e.2.points := by
        unfold entryFor
        rw [mapGet_cons]
        have hb : (e.1 == p.id) = true := by simpa using hep
        rw [if_pos hb]
        rfl
      simp only [List.map_cons, List.sum_cons, hself, hmapeq]
      rw [ih sbrest hkr hndr]
      unfold sbTotal
      simp only [List.map_cons, List.sum_cons]

theorem sum_map_const_int {β : Type} (xs : List β) (f : β → Int) (c : Int)
    (h : ∀ x ∈ xs, f x = c) : (xs.map f).sum = (xs.length : Int) * c := by
  induction xs with
  | nil => simp
  | cons x rest ih =>
    simp only [List.map_cons, List.sum_cons, List.length_cons]
    rw [h x (List.mem_cons_self x rest), ih (fun y hy => h y (List.mem_cons_of_mem x hy))]
    push_cast
    ring

theorem length_filter_ne_of_nodup (ids : List String) (x : String)
    (hnd : ids.Nodup) (hmem : x ∈ ids) :
    (ids.filter (fun i => !(i == x))).length = ids.length - 1 := by
  induction ids with
  | nil => simp at hmem
  | cons a rest ih =>
    rcases List.nodup_cons.mp hnd with ⟨har, hndr⟩
    by_cases ha : a = x
    · have hxr : x ∉ rest := by rw [← ha]; exact har
      have hid : rest.filter (fun i => !(i == x)) = rest := by
        apply List.filter_eq_self.mpr
        intro b hb
        have hbx : ¬ b = x := fun hbx => hxr (hbx ▸ hb)
        simpa using hbx
      simp [List.filter_cons, ha, hid]
    · have hxr : x ∈ rest := by
        rcases List.mem_cons.mp hmem with hx | hx
        · exact absurd hx.symm ha
        · exact hx
      have hlen := List.length_pos_of_mem hxr
      have hih := ih hndr hxr
      simp only [List.filter_cons, List.length_cons]
      have hax : (!(a == x)) = true := by simpa using ha
      rw [hax]
      simp only [if_true]
      simp only [List.length_cons]
      omega

theorem mul_pred_div_two_mul_two (N : Nat) : (N * (N - 1) / 2) * 2 = N * (N - 1) :=
  Nat.div_mul_cancel (Nat.even_mul_pred_self N).two_dvd

theorem awardSum_opv (N : Nat) (hN : 1 ≤ N) :
    awardSum ((max 1 (N - 1) : Nat) : Int) 0 (N - 1) = ((N * (N - 1) / 2 : Nat) : Int) := by
  rcases N with _ | k
  · exact absurd hN (by decide)
  · rcases k with _ | j
    · rfl
    · have hmax : (max 1 (j + 2 - 1) : Nat) = j + 1 := by omega
      rw [hmax]
      have h3 : ((j + 2) * (j + 2 - 1) / 2) * 2 = (j + 2) * (j + 2 - 1) :=
        mul_pred_div_two_mul_two (j + 2)
      have h4 : (j + 2 : Nat) - 1 = j + 1 := by omega
      rw [h4] at h3 ⊢
      have h5 : (((j + 2) * (j + 1) / 2 : Nat) : Int) * 2 = ((j + 2 : Nat) : Int) * ((j + 1 : Nat) : Int) := by
        exact_mod_cast congrArg (fun n : Nat => (n : Int)) h3
      have h6 : 2 * awardSum ((j + 1 : Nat) : Int) 0 (j + 1)
          = ((j + 1 : Nat) : Int) * (((j + 1 : Nat) : Int) + 1) := awardSum_diag (j + 1)
      have hc : ((j + 1 : Nat) : Int) + 1 = ((j + 2 : Nat) : Int) := by push_cast; ring
      rw [hc] at h6
      have h7 : (2 : Int) * awardSum ((j + 1 : Nat) : Int) 0 (j + 1)
          = 2 * (((j + 2) * (j + 1) / 2 : Nat) : Int) := by
        rw [h6]
        linarith [h5]
      exact mul_left_cancel₀ (by norm_num) h7

/-- Unfolding of the leaderboard part of `calculateScores` when a round is
active. -/
theorem calculateScores_fst (tie : RoundResultEntryInternal → RoundResultEntryInternal → Bool)
    (l : LobbyState) (rd : RoundInternalState) (hrd : l.round = some rd) :
    (calculateScores tie l).1 = jsSort (entryLE tie)
      ((activePlayers l).map (entryFor (tallyVotes (optionsPerVote l) rd.votes
        (initScoreboard (activePlayers l) (optionsPerVote l))))) := by
  unfold calculateScores
  rw [hrd]

theorem initScoreboard_keys (opv : Nat) (ps : List PlayerState)
    (hnd : (ps.map (fun p => p.id)).Nodup) :
    sbKeys (initScoreboard ps opv) = ps.map (fun p => p.id) := by
  have h := initScoreboard_spec opv ps [] (by intro p _ hmem; simp [sbKeys] at hmem) hnd
  unfold initScoreboard
  rw [h.1]
  rfl

theorem initScoreboard_total (opv : Nat) (ps : List PlayerState)
    (hnd : (ps.map (fun p => p.id)).Nodup) :
    sbTotal (initScoreboard ps opv) = 0 := by
  have h := initScoreboard_spec opv ps [] (by intro p _ hmem; simp [sbKeys] at hmem) hnd
  unfold initScoreboard
  rw [h.2]
  rfl

theorem bumpEntry_points (opv idx : Nat) (info : ScoreInfo) :
    (bumpEntry opv idx info).points = info.points + ((opv : Int) - (idx : Int)) := rfl

/-! ## Claim C1 -/

/-- C1 (amended): in a round with `N ≥ 2` active (non-spectator)
participants, `optionsPerVote` is `N - 1`, and processing rank position `i`
of a recorded ranking awards `(N - 1) - i` points to the ranked player:
position 0 earns the maximum `N - 1` points.  A full ranking lists the
`N - 1` other submitters, so its last position is `N - 2`, which earns 1
point — not 0 as the original claim states. -/
theorem borda_award_amended (l : LobbyState) (sb : Scoreboard) (pid : String)
    (info : ScoreInfo) (i : Nat)
    (hN : 2 ≤ (activePlayers l).length) (hget : mapGet sb pid = some info) :
    award (optionsPerVote l) sb pid i = mapSet sb pid (bumpEntry (optionsPerVote l) i info)
    ∧ (bumpEntry (optionsPerVote l) i info).points
        = info.points + (((activePlayers l).length : Int) - 1 - (i : Int))
    ∧ (bumpEntry (optionsPerVote l) 0 info).points
        = info.points + (((activePlayers l).length : Int) - 1)
    ∧ (bumpEntry (optionsPerVote l) ((activePlayers l).length - 2) info).points
        = info.points + 1 := by
  have hmax : optionsPerVote l = (activePlayers l).length - 1 := by
    unfold optionsPerVote
    omega
  refine ⟨?_, ?_, ?_, ?_⟩
  · unfold award
    rw [hget]
  · rw [bumpEntry_points, hmax]
    omega
  · rw [bumpEntry_points, hmax]
    omega
  · rw [bumpEntry_points, hmax]
    omega

theorem borda_award_amended_witness :
    award (optionsPerVote exLobby3) [("p3", surrogateInfo)] "p3" 1
        = mapSet [("p3", surrogateInfo)] "p3" (bumpEntry (optionsPerVote exLobby3) 1 surrogateInfo)
    ∧ (bumpEntry (optionsPerVote exLobby3) 1 surrogateInfo).points
        = surrogateInfo.points + (((activePlayers exLobby3).length : Int) - 1 - ((1 : Nat) : Int))
    ∧ (bumpEntry (optionsPerVote exLobby3) 0 surrogateInfo).points
        = surrogateInfo.points + (((activePlayers exLobby3).length : Int) - 1)
    ∧ (bumpEntry (optionsPerVote exLobby3) ((activePlayers exLobby3).length - 2) surrogateInfo).points
        = surrogateInfo.points + 1 :=
  borda_award_amended exLobby3 [("p3", surrogateInfo)] "p3" surrogateInfo 1
    (by decide) (by decide)

/-- C1 counterexample: in `exLobby3` there are `N = 3` active participants
and the single recorded ranking is `["p2", "p3"]`; the last-ranked player
"p3" ends the round with 1 point, not the 0 points the claim asserts for the
last rank position. -/
theorem borda_last_rank_counterexample :
    (((calculateScores tieTrue exLobby3).1.find? (fun e => e.playerId == "p3")).map
        (fun e => e.points)) = some 1
    ∧ ¬ ((1 : Int) = 0) := by
  constructor
  · decide
  · decide

/-! ## Claim C2 -/

/-- C2: the round leaderboard produced by `calculateScores` is pairwise
ordered by descending points, ties by descending first-place mentions, then
by descending second-place mentions (`entryBeats`); in particular, whatever
the tie-break coin (hence whatever the round seed), of two entries with
unequal points the higher-points entry appears strictly earlier. -/
theorem leaderboard_sorted_refinement
    (tie : RoundResultEntryInternal → RoundResultEntryInternal → Bool) (l : LobbyState) :
    ((calculateScores tie l).1).Pairwise entryBeats
    ∧ (∀ i j : Fin ((calculateScores tie l).1).length, (i : Nat) < (j : Nat) →
        ((calculateScores tie l).1.get i).points ≠ ((calculateScores tie l).1.get j).points →
        ((calculateScores tie l).1.get j).points < ((calculateScores tie l).1.get i).points) := by
  have hp : ((calculateScores tie l).1).Pairwise entryBeats := by
    cases hrd : l.round with
    | none =>
      unfold calculateScores
      rw [hrd]
      exact List.Pairwise.nil
    | some rd =>
      rw [calculateScores_fst tie l rd hrd]
      exact jsSort_pairwise (entryLE tie) (entryLE_true_imp tie) (entryLE_false_imp tie)
        (fun hab hbc => entryBeats_trans hab hbc) _
  refine ⟨hp, ?_⟩
  intro i j hij hne
  have hb := List.pairwise_iff_get.mp hp i j hij
  unfold entryBeats at hb
  omega

theorem leaderboard_sorted_refinement_witness :
    ((calculateScores tieTrue exLobby3).1.get ⟨1, by decide⟩).points
      < ((calculateScores tieTrue exLobby3).1.get ⟨0, by decide⟩).points :=
  (leaderboard_sorted_refinement tieTrue exLobby3).2 ⟨0, by decide⟩ ⟨1, by decide⟩
    (by decide) (by decide)

/-! ## Claim C3 -/

/-- C3: in a round whose submitters are exactly the `N` active participants
(with distinct ids) and whose recorded rankings are all validated — each
voter is a participant and each ranking is a permutation of the other
submitters' ids — the total of the Borda points over the round leaderboard
equals the number of recorded voters times `N * (N - 1) / 2`, i.e. each
voter's ranking distributes the fixed total `(N-1) + (N-2) + ... + 0`. -/
theorem borda_total_conservation
    (tie : RoundResultEntryInternal → RoundResultEntryInternal → Bool)
    (l : LobbyState) (rd : RoundInternalState)
    (hrd : l.round = some rd)
    (hnd : ((activePlayers l).map (fun p => p.id)).Nodup)
    (hsub : List.Perm (rd.submissions.map Prod.fst) ((activePlayers l).map (fun p => p.id)))
    (hvotes : ∀ v ∈ rd.votes, v.1 ∈ (activePlayers l).map (fun p => p.id) ∧
        List.Perm v.2 ((rd.submissions.map Prod.fst).filter (fun i => !(i == v.1)))) :
    (((calculateScores tie l).1).map (fun e => e.points)).sum
      = (rd.votes.length : Int)
          * (((activePlayers l).length * ((activePlayers l).length - 1) / 2 : Nat) : Int) := by
  rw [calculateScores_fst tie l rd hrd]
  have hperm := jsSort_perm (entryLE tie)
    ((activePlayers l).map (entryFor (tallyVotes (optionsPerVote l) rd.votes
      (initScoreboard (activePlayers l) (optionsPerVote l)))))
  rw [List.Perm.sum_eq (List.Perm.map (fun e => e.points) hperm)]
  have hkeys : sbKeys (tallyVotes (optionsPerVote l) rd.votes
      (initScoreboard (activePlayers l) (optionsPerVote l)))
      = (activePlayers l).map (fun p => p.id) := by
    rw [tallyVotes_keys, initScoreboard_keys (optionsPerVote l) (activePlayers l) hnd]
  rw [entries_total (activePlayers l) _ hkeys hnd]
  have hinitnd : (sbKeys (initScoreboard (activePlayers l) (optionsPerVote l))).Nodup := by
    rw [initScoreboard_keys (optionsPerVote l) (activePlayers l) hnd]
    exact hnd
  have hmem : ∀ v ∈ rd.votes, ∀ p ∈ v.2,
      p ∈ sbKeys (initScoreboard (activePlayers l) (optionsPerVote l)) := by
    intro v hv p hp
    rw [initScoreboard_keys (optionsPerVote l) (activePlayers l) hnd]
    have hpf : p ∈ (rd.submissions.map Prod.fst).filter (fun i => !(i == v.1)) :=
      ((hvotes v hv).2.mem_iff).mp hp
    have hps : p ∈ rd.submissions.map Prod.fst := List.mem_of_mem_filter hpf
    exact (hsub.mem_iff).mp hps
  rw [tallyVotes_total (optionsPerVote l) rd.votes
      (initScoreboard (activePlayers l) (optionsPerVote l)) hinitnd hmem]
  rw [initScoreboard_total (optionsPerVote l) (activePlayers l) hnd]
  have hconst : ∀ v ∈ rd.votes, awardSum ((optionsPerVote l : Nat) : Int) 0 v.2.length
      = ((((activePlayers l).length * ((activePlayers l).length - 1) / 2 : Nat)) : Int) := by
    intro v hv
    obtain ⟨hvm, hvp⟩ := hvotes v hv
    have hN1 : 1 ≤ (activePlayers l).length := by
      rcases hap : activePlayers l with _ | ⟨q, qs⟩
      · rw [hap] at hvm
        simp at hvm
      · simp
    have hlen : v.2.length = (activePlayers l).length - 1 := by
      rw [hvp.length_eq]
      have hfp := (hsub.filter (fun i => !(i == v.1))).length_eq
      rw [hfp, length_filter_ne_of_nodup ((activePlayers l).map (fun p => p.id)) v.1 hnd hvm,
          List.length_map]
    rw [hlen]
    have hopv : optionsPerVote l = max 1 ((activePlayers l).length - 1) := rfl
    rw [hopv]
    exact awardSum_opv (activePlayers l).length hN1
  rw [sum_map_const_int rd.votes _ _ hconst]
  rw [zero_add]

theorem borda_total_conservation_witness :
    (((calculateScores tieTrue exLobby2).1).map (fun e => e.points)).sum
      = ((exRound2.votes.length : Int))
          * (((activePlayers exLobby2).length * ((activePlayers exLobby2).length - 1) / 2 : Nat) : Int) :=
  borda_total_conservation tieTrue exLobby2 exRound2 rfl (by decide) (by decide) (by decide)

/-! ## Preservation lemmas for the phase-advance cascades -/

theorem foldl_preserves {α β : Type} {P : α → Prop} (f : α → β → α)
    (h : ∀ a b, P a → P (f a b)) : ∀ (xs : List β) (a : α), P a → P (xs.foldl f a) := by
  intro xs
  induction xs with
  | nil => intro a ha; exact ha
  | cons x rest ih => intro a ha; exact ih _ (h a x ha)

theorem find_player_cons (a : PlayerState) (ps : List PlayerState) (k : String) :
    (a :: ps).find? (fun q => q.id == k)
      = if (a.id == k) = true then some a else ps.find? (fun q => q.id == k) := by
  by_cases h : (a.id == k) = true
  · rw [if_pos h]
    exact List.find?_cons_of_pos _ (show ((fun q => (q.id == k)) a) = true from h)
  · rw [if_neg h]
    exact List.find?_cons_of_neg _ (show ¬ ((fun q => (q.id == k)) a) = true from h)

theorem find_keyed_map_ne (ps : List PlayerState) (v pid : String)
    (f : PlayerState → PlayerState) (hid : ∀ q, (f q).id = q.id) (h : ¬ pid = v) :
    (ps.map (fun q => if q.id == v then f q else q)).find? (fun q => q.id == pid)
      = ps.find? (fun q => q.id == pid) := by
  induction ps with
  | nil => rfl
  | cons q rest ih =>
    simp only [List.map_cons]
    by_cases hq : (q.id == v) = true
    · have hq1 : q.id = v := by simpa using hq
      have hfq : ¬ ((f q).id == pid) = true := by
        rw [hid q]
        simp only [beq_iff_eq]
        rw [hq1]
        exact fun hc => h hc.symm
      have hqp : ¬ (q.id == pid) = true := by
        simp only [beq_iff_eq]
        rw [hq1]
        exact fun hc => h hc.symm
      rw [if_pos hq, find_player_cons, find_player_cons, if_neg hfq, if_neg hqp]
      exact ih
    · rw [if_neg hq, find_player_cons, find_player_cons]
      by_cases hqp : (q.id == pid) = true
      · rw [if_pos hqp, if_pos hqp]
      · rw [if_neg hqp, if_neg hqp]
        exact ih

theorem getPlayer_setPlayer_ne (l : LobbyState) (v pid : String)
    (f : PlayerState → PlayerState) (hid : ∀ q, (f q).id = q.id) (h : ¬ pid = v) :
    getPlayer (setPlayer l v f) pid = getPlayer l pid := by
  unfold getPlayer setPlayer
  exact find_keyed_map_ne l.players v pid f hid h

theorem find_keyed_map_self (ps : List PlayerState) (v : String)
    (f : PlayerState → PlayerState) (hid : ∀ q, (f q).id = q.id) :
    (ps.map (fun q => if q.id == v then f q else q)).find? (fun q => q.id == v)
      = (ps.find? (fun q => q.id == v)).map f := by
  induction ps with
  | nil => rfl
  | cons q rest ih =>
    simp only [List.map_cons]
    by_cases hq : (q.id == v) = true
    · have hfq : ((f q).id == v) = true := by rw [hid q]; exact hq
      rw [if_pos hq, find_player_cons, find_player_cons, if_pos hfq, if_pos hq]
      rfl
    · rw [if_neg hq, find_player_cons, find_player_cons, if_neg hq, if_neg hq]
      exact ih

theorem getPlayer_setPlayer_self (l : LobbyState) (v : String)
    (f : PlayerState → PlayerState) (hid : ∀ q, (f q).id = q.id) :
    getPlayer (setPlayer l v f) v = (getPlayer l v).map f := by
  unfold getPlayer setPlayer
  exact find_keyed_map_self l.players v f hid

theorem applySubmission_preserves (pid : String) (card : MemeCard)
    (gp : Option PlayerState) (l : LobbyState) (rd : RoundInternalState) (v : String)
    (cv : MemeCard) (hvpid : ¬ pid = v)
    (hget : mapGet rd.submissions pid = some card) (hgp : getPlayer l pid = gp) :
    (∃ rd2, (applySubmission l rd v cv).round = some rd2
        ∧ mapGet rd2.submissions pid = some card)
      ∧ getPlayer (applySubmission l rd v cv) pid = gp := by
  constructor
  · refine ⟨_, rfl, ?_⟩
    rw [mapGet_mapSet_ne rd.submissions v pid _ hvpid]
    exact hget
  · unfold applySubmission
    rw [getPlayer_setPlayer_ne _ v pid
        (fun q => { q with
                    submittedMemeId := some cv.id
                    hand := q.hand.filter (fun c => !(c.id == cv.id)) })
        (fun q => rfl) hvpid]
    exact hgp

theorem autoSubmitOneCore_preserves (o : RngOracle) (pid : String) (card : MemeCard)
    (gp : Option PlayerState) (l : LobbyState) (rd : RoundInternalState) (v : String)
    (hrd : l.round = some rd)
    (hget : mapGet rd.submissions pid = some card) (hgp : getPlayer l pid = gp) :
    (∃ rd2, (autoSubmitOneCore o l rd v).round = some rd2
        ∧ mapGet rd2.submissions pid = some card)
      ∧ getPlayer (autoSubmitOneCore o l rd v) pid = gp := by
  have hplayer : ∀ p : PlayerState, ¬ pid = v →
      (∃ rd2, (autoSubmitPlayer o l rd v p).round = some rd2
          ∧ mapGet rd2.submissions pid = some card)
        ∧ getPlayer (autoSubmitPlayer o l rd v p) pid = gp := by
    intro p hvpid
    unfold autoSubmitPlayer
    by_cases hh : p.hand.length > 0
    · rw [if_pos hh]
      exact applySubmission_preserves pid card gp l rd v _ hvpid hget hgp
    · rw [if_neg hh]
      exact ⟨⟨rd, hrd, hget⟩, hgp⟩
  unfold autoSubmitOneCore
  by_cases hs : (mapGet rd.submissions v).isSome = true
  · rw [if_pos hs]
    exact ⟨⟨rd, hrd, hget⟩, hgp⟩
  · rw [if_neg hs]
    have hvpid : ¬ pid = v := by
      intro he
      rw [← he, hget] at hs
      exact hs rfl
    cases hpv : getPlayer l v with
    | none => exact ⟨⟨rd, hrd, hget⟩, hgp⟩
    | some p => exact hplayer p hvpid

theorem autoSubmitOne_preserves (o : RngOracle) (pid : String) (card : MemeCard)
    (gp : Option PlayerState) (l : LobbyState) (v : String)
    (h : (∃ rd, l.round = some rd ∧ mapGet rd.submissions pid = some card)
        ∧ getPlayer l pid = gp) :
    (∃ rd, (autoSubmitOne o l v).round = some rd
        ∧ mapGet rd.submissions pid = some card)
      ∧ getPlayer (autoSubmitOne o l v) pid = gp := by
  obtain ⟨⟨rd, hrd, hget⟩, hgp⟩ := h
  unfold autoSubmitOne
  rw [hrd]
  exact autoSubmitOneCore_preserves o pid card gp l rd v hrd hget hgp

theorem ensureAutoSubmissions_preserves (o : RngOracle) (pid : String) (card : MemeCard)
    (gp : Option PlayerState) (l : LobbyState)
    (h : (∃ rd, l.round = some rd ∧ mapGet rd.submissions pid = some card)
        ∧ getPlayer l pid = gp) :
    (∃ rd, (ensureAutoSubmissions o l).round = some rd
        ∧ mapGet rd.submissions pid = some card)
      ∧ getPlayer (ensureAutoSubmissions o l) pid = gp := by
  obtain ⟨⟨rd, hrd, hget⟩, hgp⟩ := h
  unfold ensureAutoSubmissions
  rw [hrd]
  exact foldl_preserves _ (fun a b ha => autoSubmitOne_preserves o pid card gp a b.id ha)
    (activePlayers l) l ⟨⟨rd, hrd, hget⟩, hgp⟩

theorem assignSlots_preserves (o : RngOracle) (pid : String) (card : MemeCard)
    (gp : Option PlayerState) (l1 : LobbyState)
    (h : (∃ rd, l1.round = some rd ∧ mapGet rd.submissions pid = some card)
        ∧ getPlayer l1 pid = gp) :
    (∃ rd, (assignSlots o l1).round = some rd
        ∧ mapGet rd.submissions pid = some card)
      ∧ getPlayer (assignSlots o l1) pid = gp := by
  obtain ⟨⟨rd, hrd, hget⟩, hgp⟩ := h
  unfold assignSlots
  rw [hrd]
  exact ⟨⟨_, rfl, hget⟩, hgp⟩

theorem endSelection_preserves (o : RngOracle) (pid : String) (card : MemeCard)
    (gp : Option PlayerState) (l : LobbyState)
    (h : (∃ rd, l.round = some rd ∧ mapGet rd.submissions pid = some card)
        ∧ getPlayer l pid = gp) :
    (∃ rd, (endSelection o l).round = some rd
        ∧ mapGet rd.submissions pid = some card)
      ∧ getPlayer (endSelection o l) pid = gp := by
  obtain ⟨⟨rd, hrd, hget⟩, hgp⟩ := h
  unfold endSelection
  rw [hrd]
  exact assignSlots_preserves o pid card gp (ensureAutoSubmissions o l)
    (ensureAutoSubmissions_preserves o pid card gp l ⟨⟨rd, hrd, hget⟩, hgp⟩)

theorem applyVoteRecord_votes (l : LobbyState) (rd : RoundInternalState) (v : String)
    (rk : List String) (pid : String) (r : List String) (hvpid : ¬ pid = v)
    (hget : mapGet rd.votes pid = some r) :
    ∃ rd2, (applyVoteRecord l rd v rk).round = some rd2 ∧ mapGet rd2.votes pid = some r := by
  refine ⟨_, rfl, ?_⟩
  rw [mapGet_mapSet_ne rd.votes v pid _ hvpid]
  exact hget

theorem autoVoteOneCore_preserves (o : RngOracle) (pid : String) (r : List String)
    (l : LobbyState) (rd : RoundInternalState) (v : String)
    (hrd : l.round = some rd) (hget : mapGet rd.votes pid = some r) :
    ∃ rd2, (autoVoteOneCore o l rd v).round = some rd2 ∧ mapGet rd2.votes pid = some r := by
  unfold autoVoteOneCore
  by_cases hs : (mapGet rd.votes v).isSome = true
  · rw [if_pos hs]
    exact ⟨rd, hrd, hget⟩
  · rw [if_neg hs]
    have hvpid : ¬ pid = v := by
      intro he
      rw [← he, hget] at hs
      exact hs rfl
    exact applyVoteRecord_votes l rd v _ pid r hvpid hget

theorem autoVoteOne_preserves (o : RngOracle) (pid : String) (r : List String)
    (l : LobbyState) (v : String)
    (h : ∃ rd, l.round = some rd ∧ mapGet rd.votes pid = some r) :
    ∃ rd, (autoVoteOne o l v).round = some rd ∧ mapGet rd.votes pid = some r := by
  obtain ⟨rd, hrd, hget⟩ := h
  unfold autoVoteOne
  rw [hrd]
  exact autoVoteOneCore_preserves o pid r l rd v hrd hget

theorem ensureAutoVotes_preserves (o : RngOracle) (pid : String) (r : List String)
    (l : LobbyState)
    (h : ∃ rd, l.round = some rd ∧ mapGet rd.votes pid = some r) :
    ∃ rd, (ensureAutoVotes o l).round = some rd ∧ mapGet rd.votes pid = some r := by
  obtain ⟨rd, hrd, hget⟩ := h
  unfold ensureAutoVotes
  rw [hrd]
  exact foldl_preserves _ (fun a b ha => autoVoteOne_preserves o pid r a b.id ha)
    (activePlayers l) l ⟨rd, hrd, hget⟩

theorem calculateScores_round (tie : RoundResultEntryInternal → RoundResultEntryInternal → Bool)
    (l : LobbyState) : ((calculateScores tie l).2).round = l.round := by
  unfold calculateScores
  cases hrd : l.round with
  | none => exact hrd
  | some rd => rfl

theorem publishResults_preserves (o : RngOracle) (entries : List RoundResultEntryInternal)
    (pid : String) (r : List String) (l2 : LobbyState)
    (h : ∃ rd, l2.round = some rd ∧ mapGet rd.votes pid = some r) :
    ∃ rd, (publishResults o entries l2).round = some rd ∧ mapGet rd.votes pid = some r := by
  obtain ⟨rd, hrd, hget⟩ := h
  unfold publishResults
  rw [hrd]
  exact ⟨_, rfl, hget⟩

theorem endVoting_preserves (o : RngOracle) (pid : String) (r : List String)
    (l : LobbyState)
    (h : ∃ rd, l.round = some rd ∧ mapGet rd.votes pid = some r) :
    ∃ rd, (endVoting o l).round = some rd ∧ mapGet rd.votes pid = some r := by
  obtain ⟨rd, hrd, hget⟩ := h
  unfold endVoting
  rw [hrd]
  refine publishResults_preserves o _ pid r _ ?_
  obtain ⟨rd1, hrd1, hget1⟩ := ensureAutoVotes_preserves o pid r l ⟨rd, hrd, hget⟩
  refine ⟨rd1, ?_, hget1⟩
  rw [calculateScores_round]
  exact hrd1

/-- The three boolean validation checks of `submitVote` recognize exactly the
permutations of the (duplicate-free) valid target set. -/
theorem perm_iff_checks (ranking vt : List String) (hnd : vt.Nodup) :
    List.Perm ranking vt ↔
      (ranking.length = vt.length ∧ ranking.dedup.length = vt.length
        ∧ ∀ x ∈ ranking, x ∈ vt) := by
  constructor
  · intro hp
    have hrnd : ranking.Nodup := hp.symm.nodup hnd
    refine ⟨hp.length_eq, ?_, fun x hx => hp.mem_iff.mp hx⟩
    rw [List.dedup_eq_self.mpr hrnd]
    exact hp.length_eq
  · rintro ⟨hlen, hdlen, hsub⟩
    have hded : ranking.dedup = ranking :=
      (List.dedup_sublist ranking).eq_of_length (by rw [hdlen, ← hlen])
    have hrnd : ranking.Nodup := by
      rw [← hded]
      exact List.nodup_dedup ranking
    exact (hrnd.subperm hsub).perm_of_length_le (le_of_eq hlen.symm)

theorem submitVoteCore_spec (o : RngOracle) (l : LobbyState) (rd : RoundInternalState)
    (p : PlayerState) (pid : String) (ranking : List String)
    (hnd : (rd.submissions.map Prod.fst).Nodup) :
    ((p.spectator = false
        ∧ (rd.submissions.map Prod.fst).filter (fun i => !(i == pid)) ≠ []
        ∧ List.Perm ranking ((rd.submissions.map Prod.fst).filter (fun i => !(i == pid)))) →
      ∃ rd2, (submitVoteCore o l rd p pid ranking).round = some rd2
        ∧ mapGet rd2.votes pid = some ranking)
    ∧ (¬ (p.spectator = false
        ∧ (rd.submissions.map Prod.fst).filter (fun i => !(i == pid)) ≠ []
        ∧ List.Perm ranking ((rd.submissions.map Prod.fst).filter (fun i => !(i == pid)))) →
      submitVoteCore o l rd p pid ranking = l) := by
  have hvtnd : ((rd.submissions.map Prod.fst).filter (fun i => !(i == pid))).Nodup :=
    hnd.filter _
  unfold submitVoteCore
  by_cases hspec : p.spectator = true
  · rw [if_pos hspec]
    constructor
    · rintro ⟨hsf, _, _⟩
      rw [hspec] at hsf
      exact absurd hsf (by decide)
    · intro _
      rfl
  · rw [if_neg hspec]
    have hsf : p.spectator = false := by
      cases hb : p.spectator
      · rfl
      · exact absurd hb hspec
    by_cases hlen0 : ((rd.submissions.map Prod.fst).filter (fun i => !(i == pid))).length = 0
    · rw [if_pos hlen0]
      have hvte : (rd.submissions.map Prod.fst).filter (fun i => !(i == pid)) = [] :=
        List.length_eq_zero.mp hlen0
      constructor
      · rintro ⟨_, hne, _⟩
        exact absurd hvte hne
      · intro _
        rfl
    · rw [if_neg hlen0]
      by_cases hperm : List.Perm ranking ((rd.submissions.map Prod.fst).filter (fun i => !(i == pid)))
      · obtain ⟨hl, hd, hs⟩ := (perm_iff_checks _ _ hvtnd).mp hperm
        have hall : ranking.all
            (fun i => ((rd.submissions.map Prod.fst).filter (fun j => !(j == pid))).contains i) = true := by
          rw [List.all_eq_true]
          intro x hx
          exact List.elem_iff.mpr (hs x hx)
        rw [if_neg (show ¬ ranking.length ≠ _ from fun hc => hc hl),
            if_neg (show ¬ ranking.dedup.length ≠ _ from fun hc => hc hd),
            if_neg (show ¬ (!(ranking.all _)) = true from by rw [hall]; decide)]
        have hrec : ∃ rd2, (applyVoteRecord l rd pid ranking).round = some rd2
            ∧ mapGet rd2.votes pid = some ranking :=
          ⟨_, rfl, mapGet_mapSet_self rd.votes pid ranking⟩
        constructor
        · intro _
          unfold checkAllVoted
          by_cases hall2 : allVotesIn (applyVoteRecord l rd pid ranking) = true
          · rw [if_pos hall2]
            exact endVoting_preserves o pid ranking _ hrec
          · rw [if_neg hall2]
            exact hrec
        · intro hnc
          exact absurd ⟨hsf, fun he => hlen0 (by rw [he]; rfl), hperm⟩ hnc
      · constructor
        · rintro ⟨_, _, hpm⟩
          exact absurd hpm hperm
        · intro _
          by_cases hl : ranking.length = ((rd.submissions.map Prod.fst).filter (fun i => !(i == pid))).length
          · by_cases hd : ranking.dedup.length = ((rd.submissions.map Prod.fst).filter (fun i => !(i == pid))).length
            · by_cases hs : ∀ x ∈ ranking, x ∈ (rd.submissions.map Prod.fst).filter (fun i => !(i == pid))
              · exact absurd ((perm_iff_checks _ _ hvtnd).mpr ⟨hl, hd, hs⟩) hperm
              · have hallf : ¬ ranking.all
                    (fun i => ((rd.submissions.map Prod.fst).filter (fun j => !(j == pid))).contains i) = true := by
                  rw [List.all_eq_true]
                  intro hcontra
                  exact hs (fun x hx => List.elem_iff.mp (hcontra x hx))
                rw [if_neg (show ¬ ranking.length ≠ _ from fun hc => hc hl),
                    if_neg (show ¬ ranking.dedup.length ≠ _ from fun hc => hc hd),
                    if_pos (show (!(ranking.all _)) = true from by
                      cases hba : ranking.all (fun i => ((rd.submissions.map Prod.fst).filter (fun j => !(j == pid))).contains i)
                      · rfl
                      · exact absurd hba hallf)]
            · rw [if_neg (show ¬ ranking.length ≠ _ from fun hc => hc hl), if_pos hd]
          · rw [if_pos hl]

theorem submitMemeCore_records (o : RngOracle) (l : LobbyState) (rd : RoundInternalState)
    (p : PlayerState) (pid memeId : String) (card : MemeCard)
    (hsf : p.spectator = false)
    (hfind : p.hand.find? (fun c => c.id == memeId) = some card)
    (hgp : getPlayer l pid = some p) :
    ∃ rd2 p2, (submitMemeCore o l rd p pid memeId).round = some rd2
      ∧ mapGet rd2.submissions pid = some card
      ∧ getPlayer (submitMemeCore o l rd p pid memeId) pid = some p2
      ∧ p2.submittedMemeId = some card.id
      ∧ p2.hand = p.hand.filter (fun c => !(c.id == card.id)) := by
  have hspec : ¬ p.spectator = true := by
    rw [hsf]
    decide
  have hcore : submitMemeCore o l rd p pid memeId
      = checkAllSubmitted o (applySubmission l rd pid card) := by
    unfold submitMemeCore
    rw [if_neg hspec, hfind]
  rw [hcore]
  have hga : getPlayer (applySubmission l rd pid card) pid
      = some { p with
               submittedMemeId := some card.id
               hand := p.hand.filter (fun c => !(c.id == card.id)) } := by
    unfold applySubmission
    rw [getPlayer_setPlayer_self _ pid
        (fun q => { q with
                    submittedMemeId := some card.id
                    hand := q.hand.filter (fun c => !(c.id == card.id)) })
        (fun q => rfl)]
    have hgp2 : getPlayer { l with
        round := some { rd with submissions := mapSet rd.submissions pid card } } pid = some p := hgp
    rw [hgp2]
    rfl
  have hstate : (∃ rd2, (applySubmission l rd pid card).round = some rd2
      ∧ mapGet rd2.submissions pid = some card)
      ∧ getPlayer (applySubmission l rd pid card) pid
        = some { p with
                 submittedMemeId := some card.id
                 hand := p.hand.filter (fun c => !(c.id == card.id)) } :=
    ⟨⟨_, rfl, mapGet_mapSet_self rd.submissions pid card⟩, hga⟩
  unfold checkAllSubmitted
  by_cases hall : allSubmitted (applySubmission l rd pid card) = true
  · rw [if_pos hall]
    obtain ⟨⟨rd2, h1, h2⟩, h3⟩ := endSelection_preserves o pid card _ _ hstate
    exact ⟨rd2, _, h1, h2, h3, rfl, rfl⟩
  · rw [if_neg hall]
    obtain ⟨⟨rd2, h1, h2⟩, h3⟩ := hstate
    exact ⟨rd2, _, h1, h2, h3, rfl, rfl⟩

/-! ## Claim C5 -/

/-- C5 (amended): `submitMeme` is a no-op when the lobby is not in the
Selection phase, there is no active round, the acting player is unknown or a
spectator, or the referenced card is not in the player's hand.  A prior
submission does NOT make it a no-op: contrary to the original claim,
resubmitting records the new card (replacing the previous submission) and
removes it from the hand as well. -/
theorem submitMeme_spec_amended (o : RngOracle) (l : LobbyState) (pid memeId : String) :
    (∀ rd p card, l.phase = GamePhase.selection → l.round = some rd →
        getPlayer l pid = some p → p.spectator = false →
        p.hand.find? (fun c => c.id == memeId) = some card →
        ∃ rd2 p2, (submitMeme o l pid memeId).round = some rd2
          ∧ mapGet rd2.submissions pid = some card
          ∧ getPlayer (submitMeme o l pid memeId) pid = some p2
          ∧ p2.submittedMemeId = some card.id
          ∧ p2.hand = p.hand.filter (fun c => !(c.id == card.id)))
    ∧ ((l.phase ≠ GamePhase.selection ∨ l.round = none
        ∨ getPlayer l pid = none
        ∨ (∃ p, getPlayer l pid = some p
            ∧ (p.spectator = true ∨ p.hand.find? (fun c => c.id == memeId) = none))) →
      submitMeme o l pid memeId = l) := by
  constructor
  · intro rd p card hph hrd hgp hsf hfind
    have hnn : ¬ (l.phase ≠ GamePhase.selection) := fun hc => hc hph
    have hsm : submitMeme o l pid memeId = submitMemeCore o l rd p pid memeId := by
      unfold submitMeme
      rw [if_neg hnn, hrd, hgp]
    rw [hsm]
    exact submitMemeCore_records o l rd p pid memeId card hsf hfind hgp
  · intro hdisj
    by_cases hph : l.phase ≠ GamePhase.selection
    · unfold submitMeme
      rw [if_pos hph]
    · cases hrd : l.round with
      | none =>
        unfold submitMeme
        rw [if_neg hph, hrd]
      | some rd =>
        cases hgp : getPlayer l pid with
        | none =>
          unfold submitMeme
          rw [if_neg hph, hrd, hgp]
        | some p =>
          have hsm : submitMeme o l pid memeId = submitMemeCore o l rd p pid memeId := by
            unfold submitMeme
            rw [if_neg hph, hrd, hgp]
          rw [hsm]
          rcases hdisj with hph2 | hrdn | hgpn | ⟨p2, hp2, hcond⟩
          · exact absurd hph2 hph
          · rw [hrd] at hrdn
            exact Option.noConfusion hrdn
          · rw [hgp] at hgpn
            exact Option.noConfusion hgpn
          · rw [hgp] at hp2
            injection hp2 with hpe
            rcases hcond with hspec | hfindn
            · unfold submitMemeCore
              rw [if_pos (show p.spectator = true from by rw [hpe]; exact hspec)]
            · unfold submitMemeCore
              by_cases hps : p.spectator = true
              · rw [if_pos hps]
              · rw [if_neg hps,
                    show p.hand.find? (fun c => c.id == memeId) = none from by
                      rw [hpe]; exact hfindn]

theorem submitMeme_spec_amended_witness :
    ∃ rd2 p2, (submitMeme oracle0 exLobby5 "p1" "m2").round = some rd2
      ∧ mapGet rd2.submissions "p1" = some (mcard 2)
      ∧ getPlayer (submitMeme oracle0 exLobby5 "p1" "m2") "p1" = some p2
      ∧ p2.submittedMemeId = some (mcard 2).id
      ∧ p2.hand = exPlayer5.hand.filter (fun c => !(c.id == (mcard 2).id)) :=
  (submitMeme_spec_amended oracle0 exLobby5 "p1" "m2").1 exRound5 exPlayer5 (mcard 2)
    rfl rfl (by decide) rfl (by decide)

/-- C5 counterexample: in `exLobby5` the player "p1" has already submitted
("m1" is recorded and `submittedMemeId` is set) and still holds "m2";
the claim says a second submission is a no-op, but `submitMeme` replaces the
recorded submission with "m2" and mutates the lobby. -/
theorem submitMeme_resubmission_counterexample :
    ((getPlayer exLobby5 "p1").map (fun p => p.submittedMemeId)) = some (some "m1")
    ∧ (exLobby5.round.map (fun rd => mapGet rd.submissions "p1")) = some (some (mcard 1))
    ∧ ((submitMeme oracle0 exLobby5 "p1" "m2").round.map
        (fun rd => mapGet rd.submissions "p1")) = some (some (mcard 2))
    ∧ ¬ (submitMeme oracle0 exLobby5 "p1" "m2" = exLobby5) := by
  refine ⟨?_, ?_, ?_, ?_⟩
  · decide
  · decide
  · decide
  · decide

/-! ## Claim C6 -/

/-- C6: `startGame` returns an explicit failure (`false`) whenever the lobby
has fewer than 2 active (non-spectator) players, and in that case the lobby
state is returned completely unchanged — no phase, score, hand, deck,
prompt-pool or round mutation; with at least 2 active players it returns
`true`. -/
theorem startGame_min_players (fetch : Nat → String → List MemeCard)
    (shuffleDeck : List MemeCard → List MemeCard) (o : RngOracle) (l : LobbyState) :
    ((activePlayers l).length < 2 → startGame fetch shuffleDeck o l = (false, l))
    ∧ (2 ≤ (activePlayers l).length → (startGame fetch shuffleDeck o l).1 = true) := by
  constructor
  · intro h
    unfold startGame
    rw [if_pos h]
  · intro h
    unfold startGame
    rw [if_neg (show ¬ (activePlayers l).length < 2 from by omega)]

theorem startGame_min_players_witness :
    startGame fetch0 id oracle0 exLobbySolo = (false, exLobbySolo) :=
  (startGame_min_players fetch0 id oracle0 exLobbySolo).1 (by decide)

/-! ## Claim C4 -/

/-- C4 (amended): with duplicate-free submission keys, `submitVote` records
the ranking if and only if the lobby is in the voting phase, the voter is a
known non-spectator player, the valid target set (the other submitters'
identifiers) is nonempty, and the ranking is a permutation of that set; any
call violating this leaves the lobby completely unchanged.  The amendment
to the original claim is the nonemptiness requirement: an empty ranking is
a permutation of an empty target set, but the code rejects it. -/
theorem submitVote_validation_amended (o : RngOracle) (l : LobbyState) (pid : String)
    (ranking : List String) (rd : RoundInternalState)
    (hrd : l.round = some rd)
    (hnd : (rd.submissions.map Prod.fst).Nodup) :
    ((l.phase = GamePhase.voting
        ∧ (∃ p, getPlayer l pid = some p ∧ p.spectator = false)
        ∧ (rd.submissions.map Prod.fst).filter (fun i => !(i == pid)) ≠ []
        ∧ List.Perm ranking ((rd.submissions.map Prod.fst).filter (fun i => !(i == pid)))) →
      ∃ rd2, (submitVote o l pid ranking).round = some rd2
        ∧ mapGet rd2.votes pid = some ranking)
    ∧ (¬ (l.phase = GamePhase.voting
        ∧ (∃ p, getPlayer l pid = some p ∧ p.spectator = false)
        ∧ (rd.submissions.map Prod.fst).filter (fun i => !(i == pid)) ≠ []
        ∧ List.Perm ranking ((rd.submissions.map Prod.fst).filter (fun i => !(i == pid)))) →
      submitVote o l pid ranking = l) := by
  by_cases hph : l.phase = GamePhase.voting
  · have hnn : ¬ (l.phase ≠ GamePhase.voting) := fun hc => hc hph
    cases hp : getPlayer l pid with
    | none =>
      constructor
      · rintro ⟨_, ⟨p, hp2, _⟩, _⟩
        exact Option.noConfusion hp2
      · intro _
        unfold submitVote
        rw [if_neg hnn, hrd, hp]
    | some p =>
      have hsv : submitVote o l pid ranking = submitVoteCore o l rd p pid ranking := by
        unfold submitVote
        rw [if_neg hnn, hrd, hp]
      have hcore := submitVoteCore_spec o l rd p pid ranking hnd
      rw [hsv]
      constructor
      · rintro ⟨_, ⟨p2, hp2, hps2⟩, hne, hpm⟩
        injection hp2 with hpe
        rw [← hpe] at hps2
        exact hcore.1 ⟨hps2, hne, hpm⟩
      · intro hnc
        apply hcore.2
        rintro ⟨hsf, hvt, hpm⟩
        exact hnc ⟨hph, ⟨p, rfl, hsf⟩, hvt, hpm⟩
  · constructor
    · rintro ⟨hc, _⟩
      exact absurd hc hph
    · intro _
      unfold submitVote
      rw [if_pos hph]

theorem submitVote_validation_amended_witness :
    (∃ rd2, (submitVote oracle0 exLobby2 "p1" ["p2"]).round = some rd2
      ∧ mapGet rd2.votes "p1" = some ["p2"])
    ∧ submitVote oracle0 exLobby4 "p1" ["zz"] = exLobby4 := by
  constructor
  · exact (submitVote_validation_amended oracle0 exLobby2 "p1" ["p2"] exRound2 rfl
      (by decide)).1 (by decide)
  · exact (submitVote_validation_amended oracle0 exLobby4 "p1" ["zz"] exRound4 rfl
      (by decide)).2 (by decide)

/-- C4 counterexample: in `exLobby4` the lobby is in the voting phase, the
voter "p1" is an active player, and the empty ranking is a permutation of
its (empty) valid target set — every condition of the claim holds — yet
`submitVote` ignores the vote and leaves the lobby unchanged, because the
code additionally rejects an empty target set. -/
theorem submitVote_empty_targets_counterexample :
    submitVote oracle0 exLobby4 "p1" [] = exLobby4
    ∧ exLobby4.phase = GamePhase.voting
    ∧ ((getPlayer exLobby4 "p1").map (fun p => p.spectator)) = some false
    ∧ List.Perm ([] : List String)
        ((exRound4.submissions.map Prod.fst).filter (fun i => !(i == "p1")))
    ∧ (exLobby4.round.map (fun rd => mapGet rd.votes "p1")) = some none := by
  refine ⟨?_, ?_, ?_, ?_, ?_⟩
  · decide
  · decide
  · decide
  · decide
  · decide

/-! ## Claim C7 -/

theorem SITUATIONS_some_iff (t : String) :
    (SITUATIONS t).isSome = validThemes.contains t := by
  unfold SITUATIONS validThemes
  by_cases h1 : t = "fun"
  · simp [h1]
  · by_cases h2 : t = "university"
    · simp [h1, h2]
    · by_cases h3 : t = "18+"
      · simp [h1, h2, h3]
      · simp [h1, h2, h3]

/-- C7 (amended): `sanitizeSettings` clamps the round count to [5,20] and the
player cap to [2,7] but passes the theme through verbatim.  `createLobby`
rejects an unrecognized theme outright (the `SITUATIONS` lookup throws before
the lobby is stored), so a stored freshly-created lobby always has an
enumerated theme — nothing is "replaced by the baseline default" at this
layer.  A host-driven `updateSettings`, however, stores the sanitized
settings (theme included, unvalidated) before the `SITUATIONS` lookup can
throw, so an unrecognized theme ends up stored in the lobby. -/
theorem settings_sanitization_amended (s : LobbySettings)
    (lobbyId hostId hostName hostAvatar : String) (l : LobbyState) (pid : String) :
    (5 ≤ (sanitizeSettings s).rounds ∧ (sanitizeSettings s).rounds ≤ 20
      ∧ 2 ≤ (sanitizeSettings s).maxPlayers ∧ (sanitizeSettings s).maxPlayers ≤ 7
      ∧ (sanitizeSettings s).theme = s.theme)
    ∧ (∀ pr, createLobby lobbyId hostId hostName hostAvatar s = some pr →
        validThemes.contains pr.1.settings.theme = true)
    ∧ (createLobby lobbyId hostId hostName hostAvatar s = none
        ↔ validThemes.contains s.theme = false)
    ∧ (l.hostId = pid →
        (afterUpdate (updateSettings l pid s)).settings = sanitizeSettings s) := by
  refine ⟨⟨?_, ?_, ?_, ?_, rfl⟩, ?_, ⟨?_, ?_⟩, ?_⟩
  · simp only [sanitizeSettings]
    omega
  · simp only [sanitizeSettings]
    omega
  · simp only [sanitizeSettings]
    omega
  · simp only [sanitizeSettings]
    omega
  · intro pr h
    simp only [createLobby] at h
    cases hS : SITUATIONS (sanitizeSettings s).theme with
    | none =>
      simp only [hS] at h
      exact Option.noConfusion h
    | some pool =>
      simp only [hS, Option.some.injEq] at h
      rw [← h]
      have hsome : (SITUATIONS (sanitizeSettings s).theme).isSome = true := by
        rw [hS]
        rfl
      rw [SITUATIONS_some_iff] at hsome
      exact hsome
  · intro h
    cases hcv : validThemes.contains s.theme with
    | false => rfl
    | true =>
      have hsome : (SITUATIONS (sanitizeSettings s).theme).isSome = true := by
        rw [SITUATIONS_some_iff]
        exact hcv
      cases hS : SITUATIONS (sanitizeSettings s).theme with
      | none =>
        rw [hS] at hsome
        exact Bool.noConfusion hsome
      | some pool =>
        simp only [createLobby, hS] at h
        exact Option.noConfusion h
  · intro hc
    have h1 : (SITUATIONS (sanitizeSettings s).theme).isSome = false := by
      rw [SITUATIONS_some_iff]
      exact hc
    have hnone : SITUATIONS (sanitizeSettings s).theme = none := by
      cases hS : SITUATIONS (sanitizeSettings s).theme with
      | none => rfl
      | some pool =>
        rw [hS] at h1
        exact Bool.noConfusion h1
    simp only [createLobby, hnone]
  · intro h
    have hne : ¬ l.hostId ≠ pid := fun hcn => hcn h
    simp only [updateSettings]
    rw [if_neg hne]
    split
    · rfl
    · rfl

theorem settings_sanitization_amended_witness :
    (5 ≤ (sanitizeSettings { rounds := 99, theme := "space", maxPlayers := 1 }).rounds
      ∧ (sanitizeSettings { rounds := 99, theme := "space", maxPlayers := 1 }).rounds ≤ 20
      ∧ 2 ≤ (sanitizeSettings { rounds := 99, theme := "space", maxPlayers := 1 }).maxPlayers
      ∧ (sanitizeSettings { rounds := 99, theme := "space", maxPlayers := 1 }).maxPlayers ≤ 7
      ∧ (sanitizeSettings { rounds := 99, theme := "space", maxPlayers := 1 }).theme = "space")
    ∧ (afterUpdate (updateSettings exLobbySolo "p1"
        { rounds := 99, theme := "space", maxPlayers := 1 })).settings
      = sanitizeSettings { rounds := 99, theme := "space", maxPlayers := 1 } :=
  ⟨(settings_sanitization_amended { rounds := 99, theme := "space", maxPlayers := 1 }
      "L" "h" "H" "A" exLobbySolo "p1").1,
   (settings_sanitization_amended { rounds := 99, theme := "space", maxPlayers := 1 }
      "L" "h" "H" "A" exLobbySolo "p1").2.2.2 rfl⟩

/-- C7 counterexample: a host-driven settings update with the unrecognized
theme "space" leaves `"space"` stored in the lobby settings — it is neither
rejected nor replaced by the baseline theme, contradicting the claim that the
stored theme is always one of the enumerated themes after every host-driven
update. -/
theorem settings_theme_unsanitized_counterexample :
    (afterUpdate (updateSettings exLobbySolo "p1"
        { rounds := 7, theme := "space", maxPlayers := 4 })).settings.theme = "space"
    ∧ validThemes.contains "space" = false
    ∧ exLobbySolo.hostId = "p1" := by
  refine ⟨?_, ?_, ?_⟩
  · decide
  · decide
  · decide

/-! ## Claim C8 -/

/-- C8 (amended): host reassignment triggers only when the recorded host is a
spectator or absent from the player map — NOT when the host is merely
disconnected: a disconnected non-spectator host keeps the host role.  When
reassignment does trigger, the replacement is the find-result preferring a
connected non-spectator and falling back to any non-spectator; and when no
non-spectator exists at all the lobby is NOT left host-less — the stale
`hostId` (e.g. pointing at a spectator) is kept unchanged. -/
theorem ensureHost_policy_amended (l : LobbyState) :
    (∀ p, getPlayer l l.hostId = some p → p.spectator = false →
        (ensureHost l).hostId = l.hostId)
    ∧ ((getPlayer l l.hostId = none
        ∨ ∃ p, getPlayer l l.hostId = some p ∧ p.spectator = true) →
      (∀ next,
          ((l.players.find? (fun p => !p.spectator && p.connected)).orElse
              (fun _ => l.players.find? (fun p => !p.spectator))) = some next →
          (ensureHost l).hostId = next.id)
      ∧ (((l.players.find? (fun p => !p.spectator && p.connected)).orElse
            (fun _ => l.players.find? (fun p => !p.spectator))) = none →
          ensureHost l = l)) := by
  constructor
  · intro p hgp hsf
    have hcond : (!p.spectator) = true := by
      rw [hsf]
      rfl
    simp only [ensureHost, hgp]
    rw [if_pos hcond]
    rfl
  · intro hinelig
    constructor
    · intro next hnext
      rcases hinelig with hnone | ⟨p, hgp, hspec⟩
      · simp only [ensureHost, hnone]
        rw [hnext]
      · have hcond : ¬ ((!p.spectator) = true) := by
          rw [hspec]
          decide
        simp only [ensureHost, hgp]
        rw [if_neg hcond, hnext]
    · intro hnone2
      rcases hinelig with hnone | ⟨p, hgp, hspec⟩
      · simp only [ensureHost, hnone]
        rw [hnone2]
      · have hcond : ¬ ((!p.spectator) = true) := by
          rw [hspec]
          decide
        simp only [ensureHost, hgp]
        rw [if_neg hcond, hnone2]

theorem ensureHost_policy_amended_witness :
    (ensureHost exLobby3).hostId = "p1"
    ∧ (ensureHost exLobby8).hostId = "p2" :=
  ⟨(ensureHost_policy_amended exLobby3).1 (basePlayer "p1") (by decide) (by decide),
   ((ensureHost_policy_amended exLobby8).2
      (Or.inr ⟨exHostSpec, by decide, by decide⟩)).1 (basePlayer "p2") (by decide)⟩

/-- C8 counterexample: in `exLobby8d` the host "h" disconnects (its socket
"s1" drops) while a connected non-spectator "p2" is available; the claim says
an absent/disconnected host is replaced, but the engine keeps "h" as host
because `ensureHost` only tests the spectator flag, never connectivity. -/
theorem disconnected_host_retained_counterexample :
    ((getPlayer (markPlayerDisconnected exLobby8d "s1") "h").map
        (fun p => p.connected)) = some false
    ∧ (markPlayerDisconnected exLobby8d "s1").hostId = "h"
    ∧ ((getPlayer (markPlayerDisconnected exLobby8d "s1") "p2").map
        (fun p => p.connected && !p.spectator)) = some true := by
  refine ⟨?_, ?_, ?_⟩
  · decide
  · decide
  · decide

/-! ## Claim C10 -/

theorem activeCount_map (f : PlayerState → PlayerState)
    (hf : ∀ p, (f p).spectator = p.spectator) (ps : List PlayerState) :
    ((ps.map f).filter (fun p => !p.spectator)).length
      = (ps.filter (fun p => !p.spectator)).length := by
  induction ps with
  | nil => rfl
  | cons a t ih =>
    by_cases h : (!a.spectator) = true
    · rw [List.map_cons, List.filter_cons_of_pos, List.filter_cons_of_pos]
      · simp only [List.length_cons, ih]
      · exact h
      · show (!(f a).spectator) = true
        rw [hf a]
        exact h
    · rw [List.map_cons, List.filter_cons_of_neg, List.filter_cons_of_neg]
      · exact ih
      · exact h
      · show ¬ ((!(f a).spectator) = true)
        rw [hf a]
        exact h

theorem ensureHost_activeCount (l : LobbyState) :
    (activePlayers (ensureHost l)).length = (activePlayers l).length := by
  unfold ensureHost
  split
  · split
    · exact activeCount_map
        (fun q => if q.id == l.hostId then { q with isHost := true } else q)
        (fun q => by
          show (if q.id == l.hostId then { q with isHost := true } else q).spectator
            = q.spectator
          by_cases h : (q.id == l.hostId) = true
          · rw [if_pos h]
          · rw [if_neg h])
        l.players
    · split
      · rename_i next heq
        exact activeCount_map
          (fun p => { p with isHost := (p.id == next.id) }) (fun p => rfl) l.players
      · rfl
  · split
    · rename_i next heq
      exact activeCount_map
        (fun p => { p with isHost := (p.id == next.id) }) (fun p => rfl) l.players
    · rfl

/-- C10: a join that creates a new player while the lobby phase is still
`lobby` makes the player a spectator exactly when spectator mode was
requested, emits no "lobby is full" message, and grows the active-player
count by one for a non-spectator join — with no hypothesis on `maxPlayers`:
the cap is not enforced in this phase. -/
theorem joinLobby_prelobby_no_cap (freshId defaultName defaultAvatar : String)
    (l : LobbyState) (opts : JoinOpts)
    (hph : l.phase = GamePhase.lobby)
    (hfresh : opts.playerId.bind (fun pid => getPlayer l pid) = none) :
    ((joinLobby freshId defaultName defaultAvatar l opts).2.1).spectator = opts.spectator
    ∧ (joinLobby freshId defaultName defaultAvatar l opts).2.2.2 = none
    ∧ (activePlayers (joinLobby freshId defaultName defaultAvatar l opts).1).length
      = (activePlayers l).length + (if opts.spectator = true then 0 else 1) := by
  have hb : (decide (l.phase ≠ GamePhase.lobby)) = false := by
    rw [hph]
    decide
  simp only [joinLobby, hfresh, hb, Bool.false_and, Bool.or_false]
  refine ⟨?_, ?_, ?_⟩
  · trivial
  · cases opts.spectator <;> rfl
  · cases hs : opts.spectator with
    | true =>
      rw [if_neg (by decide), if_pos rfl]
      simp [activePlayers, List.filter_append]
    | false =>
      rw [if_pos (by decide)]
      rw [ensureHost_activeCount]
      simp [activePlayers, List.filter_append]

theorem joinLobby_prelobby_no_cap_witness :
    (2 ≤ (activePlayers exLobbyFull).length ∧ exLobbyFull.settings.maxPlayers = 2)
    ∧ (((joinLobby "p3" "N" "A" exLobbyFull joinOptsActive).2.1).spectator
        = joinOptsActive.spectator
      ∧ (joinLobby "p3" "N" "A" exLobbyFull joinOptsActive).2.2.2 = none
      ∧ (activePlayers (joinLobby "p3" "N" "A" exLobbyFull joinOptsActive).1).length
        = (activePlayers exLobbyFull).length
          + (if joinOptsActive.spectator = true then 0 else 1)) :=
  ⟨⟨by decide, by decide⟩,
   joinLobby_prelobby_no_cap "p3" "N" "A" exLobbyFull joinOptsActive rfl rfl⟩

/-! ## Claim C9: settings/round-number preservation lemmas -/

theorem srObs_setPlayer (l : LobbyState) (pid : String) (f : PlayerState → PlayerState) :
    srObs (setPlayer l pid f) = srObs l := rfl

theorem srObs_ensureHost (l : LobbyState) : srObs (ensureHost l) = srObs l := by
  unfold ensureHost
  split
  · split
    · rfl
    · split
      · rfl
      · rfl
  · split
    · rfl
    · rfl

theorem srObs_joinLobby (freshId dn da : String) (l : LobbyState) (opts : JoinOpts) :
    srObs (joinLobby freshId dn da l opts).1 = srObs l := by
  cases h : opts.playerId.bind (fun pid => getPlayer l pid) with
  | some p => simp only [joinLobby, h]
  | none =>
    simp only [joinLobby, h]
    split
    · rw [srObs_ensureHost]
      rfl
    · rfl

theorem srObs_markPlayerConnected (l : LobbyState) (pid sid : String) :
    srObs (markPlayerConnected l pid sid) = srObs l := by
  unfold markPlayerConnected
  split
  · rfl
  · rfl

theorem srObs_markPlayerDisconnected (l : LobbyState) (sid : String) :
    srObs (markPlayerDisconnected l sid) = srObs l := by
  cases h : l.players.find? (fun p => p.socketId == some sid) with
  | none => simp only [markPlayerDisconnected, h]
  | some player =>
    simp only [markPlayerDisconnected, h]
    split
    · rw [srObs_ensureHost]
      rfl
    · rfl

theorem srObs_updatePlayerName (l : LobbyState) (pid name : String) :
    srObs (updatePlayerName l pid name) = srObs l := by
  cases h : getPlayer l pid with
  | none => simp only [updatePlayerName, h]
  | some p =>
    simp only [updatePlayerName, h]
    split
    · rfl
    · rfl

theorem srObs_updatePlayerAvatar (l : LobbyState) (pid av : String) :
    srObs (updatePlayerAvatar l pid av) = srObs l := by
  cases h : getPlayer l pid with
  | none => simp only [updatePlayerAvatar, h]
  | some p =>
    simp only [updatePlayerAvatar, h]
    rfl

theorem srObs_applySubmission (l : LobbyState) (rd : RoundInternalState) (pid : String)
    (card : MemeCard) (h : l.round = some rd) :
    srObs (applySubmission l rd pid card) = srObs l := by
  simp [applySubmission, setPlayer, srObs, roundNum, h]

theorem srObs_autoSubmitOne (o : RngOracle) (l : LobbyState) (vid : String) :
    srObs (autoSubmitOne o l vid) = srObs l := by
  cases h : l.round with
  | none => simp only [autoSubmitOne, h]
  | some rd =>
    simp only [autoSubmitOne, h]
    unfold autoSubmitOneCore
    split
    · rfl
    · split
      · rfl
      · unfold autoSubmitPlayer
        split
        · exact srObs_applySubmission l rd vid _ h
        · rfl

theorem srObs_ensureAutoSubmissions (o : RngOracle) (l : LobbyState) :
    srObs (ensureAutoSubmissions o l) = srObs l := by
  cases h : l.round with
  | none => simp only [ensureAutoSubmissions, h]
  | some rd =>
    simp only [ensureAutoSubmissions, h]
    exact foldl_fixes srObs _ (fun a b => srObs_autoSubmitOne o a b.id) (activePlayers l) l

theorem srObs_assignSlots (o : RngOracle) (l : LobbyState) :
    srObs (assignSlots o l) = srObs l := by
  cases h : l.round with
  | none => simp only [assignSlots, h]
  | some rd => simp [assignSlots, h, srObs, roundNum]

theorem srObs_endSelection (o : RngOracle) (l : LobbyState) :
    srObs (endSelection o l) = srObs l := by
  cases h : l.round with
  | none => simp only [endSelection, h]
  | some rd =>
    simp only [endSelection, h]
    rw [srObs_assignSlots, srObs_ensureAutoSubmissions]

theorem srObs_applyVoteRecord (l : LobbyState) (rd : RoundInternalState) (vid : String)
    (ranking : List String) (h : l.round = some rd) :
    srObs (applyVoteRecord l rd vid ranking) = srObs l := by
  simp [applyVoteRecord, setPlayer, srObs, roundNum, h]

theorem srObs_autoVoteOne (o : RngOracle) (l : LobbyState) (vid : String) :
    srObs (autoVoteOne o l vid) = srObs l := by
  cases h : l.round with
  | none => simp only [autoVoteOne, h]
  | some rd =>
    simp only [autoVoteOne, h]
    unfold autoVoteOneCore
    split
    · rfl
    · exact srObs_applyVoteRecord l rd vid _ h

theorem srObs_ensureAutoVotes (o : RngOracle) (l : LobbyState) :
    srObs (ensureAutoVotes o l) = srObs l := by
  cases h : l.round with
  | none => simp only [ensureAutoVotes, h]
  | some rd =>
    simp only [ensureAutoVotes, h]
    exact foldl_fixes srObs _ (fun a b => srObs_autoVoteOne o a b.id) (activePlayers l) l

theorem srObs_calculateScores (tie : RoundResultEntryInternal → RoundResultEntryInternal → Bool)
    (l : LobbyState) : srObs (calculateScores tie l).2 = srObs l := by
  cases h : l.round with
  | none => simp only [calculateScores, h]
  | some rd => simp only [calculateScores, h, srObs, roundNum]

theorem srObs_publishResults (o : RngOracle) (entries : List RoundResultEntryInternal)
    (l2 : LobbyState) : srObs (publishResults o entries l2) = srObs l2 := by
  cases h : l2.round with
  | none => simp only [publishResults, h]
  | some rd => simp [publishResults, h, srObs, roundNum]

theorem srObs_endVoting (o : RngOracle) (l : LobbyState) :
    srObs (endVoting o l) = srObs l := by
  cases h : l.round with
  | none => simp only [endVoting, h]
  | some rd =>
    simp only [endVoting, h]
    rw [srObs_publishResults, srObs_calculateScores, srObs_ensureAutoVotes]

theorem srObs_submitMemeCore (o : RngOracle) (l : LobbyState) (rd : RoundInternalState)
    (p : PlayerState) (pid memeId : String) (h : l.round = some rd) :
    srObs (submitMemeCore o l rd p pid memeId) = srObs l := by
  unfold submitMemeCore
  split
  · rfl
  · split
    · rfl
    · unfold checkAllSubmitted
      split
      · rw [srObs_endSelection, srObs_applySubmission l rd pid _ h]
      · exact srObs_applySubmission l rd pid _ h

theorem srObs_submitMeme (o : RngOracle) (l : LobbyState) (pid memeId : String) :
    srObs (submitMeme o l pid memeId) = srObs l := by
  by_cases hph : l.phase ≠ GamePhase.selection
  · have hr : submitMeme o l pid memeId = l := by
      unfold submitMeme
      rw [if_pos hph]
    rw [hr]
  · cases hrd : l.round with
    | none =>
      have hr : submitMeme o l pid memeId = l := by
        unfold submitMeme
        rw [if_neg hph, hrd]
      rw [hr]
    | some rd =>
      cases hgp : getPlayer l pid with
      | none =>
        have hr : submitMeme o l pid memeId = l := by
          unfold submitMeme
          rw [if_neg hph, hrd, hgp]
        rw [hr]
      | some p =>
        have hr : submitMeme o l pid memeId = submitMemeCore o l rd p pid memeId := by
          unfold submitMeme
          rw [if_neg hph, hrd, hgp]
        rw [hr]
        exact srObs_submitMemeCore o l rd p pid memeId hrd

theorem srObs_submitVoteCore (o : RngOracle) (l : LobbyState) (rd : RoundInternalState)
    (p : PlayerState) (pid : String) (ranking : List String) (h : l.round = some rd) :
    srObs (submitVoteCore o l rd p pid ranking) = srObs l := by
  unfold submitVoteCore
  split
  · rfl
  · split
    · rfl
    · split
      · rfl
      · split
        · rfl
        · split
          · rfl
          · unfold checkAllVoted
            split
            · rw [srObs_endVoting, srObs_applyVoteRecord l rd pid ranking h]
            · exact srObs_applyVoteRecord l rd pid ranking h

theorem srObs_submitVote (o : RngOracle) (l : LobbyState) (pid : String)
    (ranking : List String) : srObs (submitVote o l pid ranking) = srObs l := by
  by_cases hph : l.phase ≠ GamePhase.voting
  · have hr : submitVote o l pid ranking = l := by
      unfold submitVote
      rw [if_pos hph]
    rw [hr]
  · cases hrd : l.round with
    | none =>
      have hr : submitVote o l pid ranking = l := by
        unfold submitVote
        rw [if_neg hph, hrd]
      rw [hr]
    | some rd =>
      cases hgp : getPlayer l pid with
      | none =>
        have hr : submitVote o l pid ranking = l := by
          unfold submitVote
          rw [if_neg hph, hrd, hgp]
        rw [hr]
      | some p =>
        have hr : submitVote o l pid ranking = submitVoteCore o l rd p pid ranking := by
          unfold submitVote
          rw [if_neg hph, hrd, hgp]
        rw [hr]
        exact srObs_submitVoteCore o l rd p pid ranking hrd

theorem srObs_pickSituation (o : RngOracle) (l : LobbyState) :
    srObs (pickSituation o l).2 = srObs l := by
  simp only [pickSituation, srObs, roundNum]
  split
  · rfl
  · rfl

theorem beginRound_settings (o : RngOracle) (l : LobbyState) :
    (beginRound o l).settings = l.settings :=
  congrArg Prod.fst (srObs_pickSituation o l)

theorem beginRound_roundNum (o : RngOracle) (l : LobbyState) :
    roundNum (beginRound o l) = some (prevRound l + 1) := rfl

theorem srObs_dealOne (c : Nat) (l : LobbyState) (pid : String) :
    srObs (dealOne c l pid) = srObs l := rfl

theorem srObs_dealAll (c : Nat) (l : LobbyState) : srObs (dealAll c l) = srObs l :=
  foldl_fixes srObs (fun acc (p : PlayerState) => dealOne c acc p.id)
    (fun a b => srObs_dealOne c a b.id) (activePlayers l) l

theorem dealAll_settings (c : Nat) (l : LobbyState) : (dealAll c l).settings = l.settings :=
  congrArg Prod.fst (srObs_dealAll c l)

theorem dealAll_round (c : Nat) (l : LobbyState) : (dealAll c l).round = l.round :=
  foldl_fixes (fun (x : LobbyState) => x.round) (fun acc (p : PlayerState) => dealOne c acc p.id)
    (fun _ _ => rfl) (activePlayers l) l

/-! ## Claim C9: the invariant and its preservation -/

theorem RoundBound_of_srObs (l l' : LobbyState) (h : srObs l' = srObs l)
    (hb : RoundBound l) : RoundBound l' := by
  obtain ⟨h1, h2⟩ := hb
  have hs : l'.settings = l.settings := congrArg Prod.fst h
  have hr : roundNum l' = roundNum l := congrArg Prod.snd h
  constructor
  · rw [hs]
    exact h1
  · intro rd hrd
    have hv : roundNum l' = some rd.roundNumber := by
      unfold roundNum
      rw [hrd]
      rfl
    rw [hr] at hv
    unfold roundNum at hv
    cases hr0 : l.round with
    | none =>
      rw [hr0] at hv
      exact Option.noConfusion hv
    | some rd0 =>
      rw [hr0] at hv
      injection hv with hv2
      rw [hs, ← hv2]
      exact h2 rd0 hr0

theorem updateSettings_host_sr (l : LobbyState) (pid : String) (s : LobbySettings)
    (h : ¬ l.hostId ≠ pid) :
    (afterUpdate (updateSettings l pid s)).settings = sanitizeSettings s
    ∧ (afterUpdate (updateSettings l pid s)).round = l.round := by
  simp only [updateSettings]
  rw [if_neg h]
  split
  · exact ⟨rfl, rfl⟩
  · exact ⟨rfl, rfl⟩

theorem RoundBound_beginRound (o : RngOracle) (l : LobbyState)
    (h1 : 1 ≤ l.settings.rounds)
    (h2 : (prevRound l : Int) + 1 ≤ l.settings.rounds) :
    RoundBound (beginRound o l) := by
  constructor
  · rw [beginRound_settings]
    exact h1
  · intro rd hrd
    have hr2 : roundNum (beginRound o l) = some rd.roundNumber := by
      unfold roundNum
      rw [hrd]
      rfl
    have hr : roundNum (beginRound o l) = some (prevRound l + 1) := beginRound_roundNum o l
    rw [hr2] at hr
    injection hr with hv
    rw [beginRound_settings, hv]
    omega

theorem RoundBound_start_aux (o : RngOracle) (c : Nat) (l2 : LobbyState)
    (h1 : 1 ≤ l2.settings.rounds) (hr : l2.round = none) :
    RoundBound (beginRound o (dealAll c l2)) := by
  refine RoundBound_beginRound o _ ?_ ?_
  · rw [dealAll_settings]
    exact h1
  · have hpr : prevRound (dealAll c l2) = 0 := by
      unfold prevRound
      rw [dealAll_round, hr]
    rw [hpr, dealAll_settings]
    omega

theorem RoundBound_step (l l' : LobbyState) (h : BoundedStep l l') (hb : RoundBound l) :
    RoundBound l' := by
  cases h with
  | join freshId dn da l opts =>
    exact RoundBound_of_srObs l _ (srObs_joinLobby freshId dn da l opts) hb
  | connect l pid sid => exact RoundBound_of_srObs l _ (srObs_markPlayerConnected l pid sid) hb
  | disconnect l sid => exact RoundBound_of_srObs l _ (srObs_markPlayerDisconnected l sid) hb
  | renamePlayer l pid name =>
    exact RoundBound_of_srObs l _ (srObs_updatePlayerName l pid name) hb
  | newAvatar l pid av => exact RoundBound_of_srObs l _ (srObs_updatePlayerAvatar l pid av) hb
  | settingsUpdate l pid s hguard =>
    by_cases hh : l.hostId ≠ pid
    · have he : updateSettings l pid s = Except.ok l := by
        unfold updateSettings
        rw [if_pos hh]
      rw [he]
      exact hb
    · obtain ⟨hset, hround⟩ := updateSettings_host_sr l pid s hh
      constructor
      · rw [hset]
        simp only [sanitizeSettings]
        omega
      · intro rd hrd
        rw [hset]
        rw [hround] at hrd
        exact hguard rd hrd
  | start fetch shuffleDeck o l =>
    simp only [startGame]
    split
    · exact hb
    · exact RoundBound_start_aux o _ _ hb.1 rfl
  | meme o l pid memeId => exact RoundBound_of_srObs l _ (srObs_submitMeme o l pid memeId) hb
  | vote o l pid ranking => exact RoundBound_of_srObs l _ (srObs_submitVote o l pid ranking) hb
  | selTimer o l => exact RoundBound_of_srObs l _ (srObs_endSelection o l) hb
  | voteTimer o l => exact RoundBound_of_srObs l _ (srObs_endVoting o l) hb
  | resultsTimer o l =>
    cases hrd : l.round with
    | none =>
      have he : finishRound o l = l := by
        unfold finishRound
        rw [hrd]
      rw [he]
      exact hb
    | some rd =>
      have he : finishRound o l
          = (if (rd.roundNumber : Int) ≥ l.settings.rounds
              then { l with phase := GamePhase.finalResults, round := none }
              else beginRound o { l with phase := GamePhase.selection }) := by
        unfold finishRound
        rw [hrd]
      rw [he]
      by_cases hge : (rd.roundNumber : Int) ≥ l.settings.rounds
      · rw [if_pos hge]
        constructor
        · exact hb.1
        · intro rd2 h2
          exact Option.noConfusion h2
      · rw [if_neg hge]
        refine RoundBound_beginRound o _ ?_ ?_
        · exact hb.1
        · have hpr : prevRound { l with phase := GamePhase.selection } = rd.roundNumber := by
            unfold prevRound
            rw [show ({ l with phase := GamePhase.selection } : LobbyState).round = some rd
              from hrd]
          rw [hpr]
          show (rd.roundNumber : Int) + 1 ≤ l.settings.rounds
          omega

/-- C9 (amended): a freshly created lobby satisfies the round bound (no
active round, positive configured round count), and the bound — an active
round's number never exceeds the configured round count — is preserved by
every reachable sequence of operations PROVIDED each settings update keeps
the (sanitized) round count at or above the active round number.  Without
that proviso the claim is false: `updateSettings` lowers the count freely
mid-game (see the accompanying counterexample trace). -/
theorem round_bound_invariant_amended :
    (∀ lid hid hn ha s pr, createLobby lid hid hn ha s = some pr → RoundBound pr.1)
    ∧ (∀ l l', Relation.ReflTransGen BoundedStep l l' → RoundBound l → RoundBound l') := by
  constructor
  · intro lid hid hn ha s pr h
    simp only [createLobby] at h
    cases hS : SITUATIONS (sanitizeSettings s).theme with
    | none =>
      simp only [hS] at h
      exact Option.noConfusion h
    | some pool =>
      simp only [hS, Option.some.injEq] at h
      rw [← h]
      constructor
      · show 1 ≤ (sanitizeSettings s).rounds
        simp only [sanitizeSettings]
        omega
      · intro rd hrd
        exact Option.noConfusion hrd
  · intro l l' h hb
    induction h with
    | refl => exact hb
    | tail h1 h2 ih => exact RoundBound_step _ _ h2 ih

theorem round_bound_invariant_amended_witness :
    RoundBound (startGame fetch0 id oracle0 exLobbyFull).2 :=
  round_bound_invariant_amended.2 exLobbyFull (startGame fetch0 id oracle0 exLobbyFull).2
    (Relation.ReflTransGen.single (BoundedStep.start fetch0 id oracle0 exLobbyFull))
    ⟨by decide, fun rd h => Option.noConfusion h⟩

/-- C9 counterexample: starting from a freshly created 6-round lobby (which
satisfies the bound), a genuine sequence of engine operations — a join, a
game start, five full timer-driven rounds, then a host settings update
lowering the round count to 5 during round 6 — reaches a state whose active
round number 6 exceeds the configured round count 5.  The claimed invariant
fails on reachable states. -/
theorem round_bound_violation_counterexample :
    Relation.ReflTransGen Step traceL0 traceLF
    ∧ RoundBound traceL0
    ∧ traceLF.settings.rounds = 5
    ∧ roundNum traceLF = some 6 := by
  refine ⟨?_, ⟨by decide, fun rd h => Option.noConfusion h⟩, by decide, by decide⟩
  have hc : ∀ l, Relation.ReflTransGen Step l (cycleStep l) := fun l =>
    Relation.ReflTransGen.tail
      (Relation.ReflTransGen.tail
        (Relation.ReflTransGen.single (Step.selTimer oracle0 l))
        (Step.voteTimer oracle0 (endSelection oracle0 l)))
      (Step.resultsTimer oracle0 (endVoting oracle0 (endSelection oracle0 l)))
  have h1 : Relation.ReflTransGen Step traceL0 traceLJ :=
    Relation.ReflTransGen.single (Step.join "p2" "Guest" "B" traceL0 joinOptsActive)
  have h2 : Relation.ReflTransGen Step traceLJ traceLS :=
    Relation.ReflTransGen.single (Step.start fetch0 id oracle0 traceLJ)
  have h3 : Relation.ReflTransGen Step traceLS traceL6 :=
    ((((hc traceLS).trans (hc _)).trans (hc _)).trans (hc _)).trans (hc _)
  have h4 : Relation.ReflTransGen Step traceL6 traceLF :=
    Relation.ReflTransGen.single
      (Step.settingsUpdate traceL6 "h" { rounds := 5, theme := "fun", maxPlayers := 5 })
  exact ((h1.trans h2).trans h3).trans h4

end MemeGame
